import Mathlib

/-!
Verification development for the SDLC-Langgraph dynamic-interrupt workflow.

The definitions below are a shallow embedding of the Python sources:

* `state/sdlc_state.py` — the `SDLCState` TypedDict.
* `nodes/dynamic_review_node.py`, `nodes/design_review_node.py`,
  `nodes/code_review_node.py`, `nodes/security_review_node.py`,
  `nodes/test_cases_review_node.py` — gated review stages, their revision
  stages and routers.
* `nodes/requirements_node.py`, `nodes/user_stories_node.py`,
  `nodes/design_documents_node.py`, `nodes/generate_code_node.py`,
  `nodes/test_cases_generation_node.py`, `nodes/deployment_node.py`,
  `nodes/fix_code_after_review_node.py`, `nodes/fix_code_after_security_node.py`,
  `nodes/revise_test_cases_node.py` — the remaining workflow stages.
* `utils/dynamic_workflow_runner.py` — the interrupt dispatcher and the
  per-interrupt-type resolvers.

External effects are made explicit:

* delegated LLM calls (which may raise) appear as `Except Unit r` parameters
  carrying either the parsed completion or the raised exception;
* the artifact text produced by generation helpers appears as an explicit
  parameter (prompt construction and fallback text are presentation-level and
  do not feed back into control flow);
* `datetime.now().isoformat()` appears as a `now : String` parameter;
* console input appears as a `List String` of successive entries;
* the langgraph suspension primitive `interrupt(...)` is modelled by the
  `Susp` free-monad below.  Modelled from the spec: the langgraph
  interrupt/resume engine itself is third-party library code that is not part
  of this repository; per spec section 4.3, a stage requests suspension at a
  call-site, and a later resume makes that exact call-site return the supplied
  value, with earlier call-sites replaying their recorded values in call-site
  order.
-/

/-- Python-level resume/choice values that flow through `interrupt()` /
`Command(resume=...)`: strings, flat string dictionaries (for example the
feedback payload built by `_handle_human_review_feedback`), `None`, booleans
and integers. -/
inductive RVal where
  | vstr (s : String)
  | vdict (d : List (String × String))
  | vnone
  | vbool (b : Bool)
  | vint (n : Int)
  | vlist (l : List String)
deriving Repr, DecidableEq

/-- Python truthiness of a resume value (`if suggestion_input ...`). -/
def pyTruthy : RVal → Bool
  | .vstr s => s ≠ ""
  | .vdict d => d ≠ []
  | .vnone => false
  | .vbool b => b
  | .vint n => n ≠ 0
  | .vlist l => l ≠ []

/-- Python `str(...)` applied to a resume value.  Dictionary rendering elides
the quote characters of the Python repr; no control path in the sources
inspects that rendering further. -/
def pyStr : RVal → String
  | .vstr s => s
  | .vdict d =>
      "\x7b" ++ String.intercalate ", " (d.map (fun kv => kv.1 ++ ": " ++ kv.2)) ++ "\x7d"
  | .vnone => "None"
  | .vbool b => if b then "True" else "False"
  | .vint n => toString n
  | .vlist l => "[" ++ String.intercalate ", " l ++ "]"

/-- Python `v == "lit"` for a resume value against a string literal: only a
string compares equal to a string. -/
def rvalEqStr (v : RVal) (t : String) : Bool :=
  match v with
  | .vstr s => s == t
  | _ => false

/-- Model of `d.get(key, default)` on a flat string dictionary. -/
def dictGet (d : List (String × String)) (key default : String) : String :=
  match d.lookup key with
  | some v => v
  | none => default

/-- Python `str.title()`: capitalize the first letter of each
whitespace-separated word and lowercase the rest. -/
def pyTitle (s : String) : String :=
  String.intercalate " " ((s.splitOn " ").map (fun w => w.capitalize))

/-- One `interrupt(...)` payload / one entry of `result["__interrupt__"]`.
The `type` tag and the option keys are the data the runner dispatches and
validates on; question/prompt/preview entries are presentation-only and are
not modelled.  `risk_options` is the extra option-key set carried only by the
`human_security_risk_assessment` payload. -/
structure InterruptData where
  ptype : String
  options : List String
  risk_options : List String
deriving Repr, DecidableEq

/-- A stage-function computation that may suspend: either a finished result,
or a pause request together with the continuation that consumes the resume
value.  Modelled from the spec: this is the suspend/resume protocol of spec
section 4.3 for the third-party interrupt primitive used by the nodes. -/
inductive Susp (α : Type) where
  | done (a : α)
  | pause (payload : InterruptData) (k : RVal → Susp α)

namespace Susp

/-- Sequencing of suspendable computations. -/
def bind : Susp α → (α → Susp β) → Susp β
  | .done a, f => f a
  | .pause p k, f => .pause p (fun v => bind (k v) f)

/-- One `resume(value)` cycle: substitute the value at the pending
suspension point (a finished computation is left untouched). -/
def step : Susp α → RVal → Susp α
  | .done a, _ => .done a
  | .pause _ k, v => k v

/-- Drive a stage through successive start/resume cycles, one resume value
per cycle, exactly as `run_workflow_with_dynamic_interrupts` does in its
`while result.get("__interrupt__")` loop. -/
def drive (c : Susp α) (vs : List RVal) : Susp α :=
  vs.foldl step c

/-- The hypothetical direct call: each suspension call-site is replaced
inline by its corresponding resume value, matched positionally; `none` when
the value list runs out before the computation finishes. -/
def runAll : Susp α → List RVal → Option α
  | .done a, _ => some a
  | .pause _ _, [] => none
  | .pause _ k, v :: vs => runAll (k v) vs

/-- Every leaf of the suspension tree satisfies `P`. -/
def Leaves (P : α → Prop) : Susp α → Prop
  | .done a => P a
  | .pause _ k => ∀ v, Leaves P (k v)

/-- Every leaf reachable along resume values that respect the pause options
(whenever a pause advertises a nonempty option-key set, the value supplied
for it is one of those keys) satisfies `P`. -/
def GoodTree (P : α → Prop) : Susp α → Prop
  | .done a => P a
  | .pause p k => ∀ v, (p.options ≠ [] → ∃ s, v = RVal.vstr s ∧ s ∈ p.options) →
      GoodTree P (k v)

/-- The resume-value list respects the option keys of each pause it answers. -/
def ValidResumes : Susp α → List RVal → Prop
  | _, [] => True
  | .done _, _ :: _ => True
  | .pause p k, v :: vs =>
      (p.options ≠ [] → ∃ s, v = RVal.vstr s ∧ s ∈ p.options) ∧ ValidResumes (k v) vs

end Susp

/-- One user story dictionary (StoryRecord).  Fields are the keys the SDLC
nodes read; stories are produced wholesale by the generation/revision
helpers. -/
structure Story where
  id : String
  title : String
  description : String
  priority : String
  story_points : String
  acceptance_criteria : List String
  business_value : String
deriving Repr, DecidableEq

/-- One entry of `review_history`, as assembled by the review stages
(`review_record = { "iteration": ..., ... }`).  The two-to-three
stage-specific score entries (for example `business_value_score` /
`completeness_score` for the product-owner review) are kept as a keyed list
`extra_scores`. -/
structure ReviewRecord where
  iteration : Nat
  stage : String
  reviewer : String
  status : RVal
  feedback : String
  suggestions : List String
  timestamp : String
  extra_scores : List (String × RVal)
  review_method : RVal
deriving Repr, DecidableEq

/-- The review dictionary a review handler returns (`_handle_human_*`,
`_handle_ai_*`, `_handle_auto_approve_*`).  `extra` carries the
stage-specific score/assessment entries; the per-file / per-story id lists of
the Python dict are presentation-only and not modelled.
`security_scan_results` is only populated by the security handlers. -/
structure ReviewResult where
  status : RVal
  feedback : String
  reviewer : String
  timestamp : String
  approval_status : RVal
  suggestions : List String
  extra : List (String × RVal)
  security_scan_results : List (String × RVal)
  review_method : String
deriving Repr, DecidableEq

/-- Model of `review_result.get(key)` on the stage-specific entries (Python default
`None`). -/
def extraGet (d : List (String × RVal)) (key : String) : RVal :=
  match d.lookup key with
  | some v => v
  | none => .vnone

/-- The `SDLCState` TypedDict of `state/sdlc_state.py`.  Dictionaries of
named text artifacts (`design_docs`, `code`, `test_cases`) are association
lists; `review_feedback` is `none` for the cleared `{}` dictionary.
The legacy compatibility fields `review_type` / `human_review_requested` are
carried unchanged by every stage and are not modelled. -/
structure SDLCState where
  requirements : String
  user_stories : List Story
  design_docs : List (String × String)
  code : List (String × String)
  test_cases : List (String × String)
  review_feedback : Option ReviewResult
  approval_status : RVal
  current_stage : String
  iteration_count : Nat
  review_history : List ReviewRecord
  project_id : String
  timestamp : String
  stakeholders : List String
  security_scan_results : List (String × RVal)
  test_results : List (String × String)
  deployment_status : RVal
deriving Repr, DecidableEq

/-- Model of `config/settings.py`: the workflow-relevant settings (both read from the
environment with defaults 3). -/
structure Settings where
  MAX_ITERATIONS : Nat
  MAX_USER_STORIES : Nat
deriving Repr, DecidableEq

/-- Option keys of the review-method choice interrupts. -/
def reviewChoiceOptions : List String := ["human", "ai", "auto"]

/-- Option keys of the human overall-decision interrupts. -/
def decisionOptions : List String := ["approve", "request_changes", "reject"]

/-- Risk-level option keys of the security risk-assessment interrupt. -/
def riskLevelOptions : List String := ["low", "medium", "high"]

/-- Payload of an interrupt whose resolver validates against `options`. -/
def mkInterrupt (t : String) (opts : List String) : InterruptData :=
  { ptype := t, options := opts, risk_options := [] }

/-- Payload of the security risk-assessment interrupt (its option keys travel
under `risk_options`). -/
def mkRiskInterrupt (t : String) : InterruptData :=
  { ptype := t, options := [], risk_options := riskLevelOptions }

/-- The `detailed_feedback.get("feedback", "") if isinstance(detailed_feedback,
dict) else str(detailed_feedback)` idiom shared by all human review
handlers. -/
def extractFeedback (v : RVal) : String :=
  match v with
  | .vdict d => dictGet d "feedback" ""
  | v => pyStr v

/-- Python `pat in s` substring membership (for nonempty `pat`). -/
def pyIn (pat s : String) : Bool := (s.splitOn pat).length ≥ 2

/-- Append an element if not already present (the unique-append idiom of
`_analyze_test_statistics`). -/
def addUnique (l : List String) (x : String) : List String :=
  if x ∈ l then l else l ++ [x]

-- ==================== nodes/dynamic_review_node.py ====================

/-- Review dictionary built by `_handle_human_review_dynamic` once its
decision, feedback and suggestions are known. -/
def humanReviewResult (now : String) (overall_decision : RVal)
    (feedback : String) (suggestions : List String) : ReviewResult :=
  { status := overall_decision
    feedback := if feedback = "" then
        "Human review completed with decision: " ++ pyStr overall_decision
      else feedback
    reviewer := "Human"
    timestamp := now
    approval_status := overall_decision
    suggestions := suggestions
    extra := [("business_value_score", .vint 8), ("completeness_score", .vint 8)]
    security_scan_results := []
    review_method := "human_dynamic" }

/-- Model of `_handle_human_review_dynamic`: up to three sequential interrupts
(decision, then detailed feedback when not approved, then suggestions when
the feedback text is truthy). -/
def _handle_human_review_dynamic (now : String) : Susp ReviewResult :=
  .pause (mkInterrupt "human_review_decision" decisionOptions) fun overall_decision =>
    if rvalEqStr overall_decision "approve" then
      .done (humanReviewResult now overall_decision "" [])
    else
      .pause (mkInterrupt "human_review_feedback" []) fun detailed_feedback =>
        let feedback := extractFeedback detailed_feedback
        if feedback ≠ "" then
          .pause (mkInterrupt "human_review_suggestions" []) fun suggestion_input =>
            let suggestions :=
              if pyTruthy suggestion_input && (pyStr suggestion_input).trim ≠ "" then
                [(pyStr suggestion_input).trim]
              else []
            .done (humanReviewResult now overall_decision feedback suggestions)
        else
          .done (humanReviewResult now overall_decision feedback [])

/-- Model of `_handle_auto_approve_dynamic`: instant approval dictionary. -/
def _handle_auto_approve_dynamic (now : String) : ReviewResult :=
  { status := .vstr "approve"
    feedback := "Auto-approved by user choice - review skipped"
    reviewer := "Auto"
    timestamp := now
    approval_status := .vstr "approve"
    suggestions := []
    extra := [("business_value_score", .vint 7), ("completeness_score", .vint 7),
              ("overall_assessment", .vstr "Automatically approved without review")]
    security_scan_results := []
    review_method := "auto_dynamic" }

/-- Model of `_handle_ai_review_dynamic`: delegate to the LLM; on success stamp the
required metadata fields, on any raised exception fall back to
`_handle_auto_approve_dynamic`. -/
def _handle_ai_review_dynamic (llm : Except Unit ReviewResult) (now : String) : ReviewResult :=
  match llm with
  | .ok r =>
      { r with reviewer := "AI", timestamp := now, approval_status := r.status,
               review_method := "ai_dynamic" }
  | .error _ => _handle_auto_approve_dynamic now

/-- The `review_record` dictionary appended by `product_owner_review_dynamic`. -/
def poReviewRecord (s : SDLCState) (user_choice : RVal) (r : ReviewResult) : ReviewRecord :=
  { iteration := s.iteration_count
    stage := "product_owner_review"
    reviewer := r.reviewer
    status := r.status
    feedback := r.feedback
    suggestions := r.suggestions
    timestamp := r.timestamp
    extra_scores := [("business_value_score", extraGet r.extra "business_value_score"),
                     ("completeness_score", extraGet r.extra "completeness_score")]
    review_method := user_choice }

/-- Tail of `product_owner_review_dynamic`: append the review record and
update the state with the review results. -/
def poFinish (s : SDLCState) (user_choice : RVal) (r : ReviewResult) (now : String) :
    SDLCState :=
  { s with review_feedback := some r
           approval_status := r.status
           current_stage := "product_owner_review_complete"
           timestamp := now
           review_history := s.review_history ++ [poReviewRecord s user_choice r] }

/-- Model of `product_owner_review_dynamic`: auto-approve when there are no user
stories, otherwise interrupt for the review method, run the chosen handler
(unknown choices default to the AI review) and record the result. -/
def product_owner_review_dynamic (llm : Except Unit ReviewResult) (now : String)
    (s : SDLCState) : Susp SDLCState :=
  if s.user_stories.isEmpty then
    .done { s with approval_status := .vstr "approved",
                   current_stage := "product_owner_review_complete",
                   timestamp := now }
  else
    .pause (mkInterrupt "review_choice" reviewChoiceOptions) fun user_choice =>
      let finish := fun (r : ReviewResult) => Susp.done (poFinish s user_choice r now)
      if rvalEqStr user_choice "human" then
        (_handle_human_review_dynamic now).bind finish
      else if rvalEqStr user_choice "ai" then
        finish (_handle_ai_review_dynamic llm now)
      else if rvalEqStr user_choice "auto" then
        finish (_handle_auto_approve_dynamic now)
      else
        finish (_handle_ai_review_dynamic llm now)

/-- Model of `revise_user_stories_dynamic`: replace the stories with the revised set
(`revised` is the result of `_generate_revised_stories_dynamic`, which
handles its own LLM fallback), bump the iteration count and reset the review
fields. -/
def revise_user_stories_dynamic (revised : List Story) (now : String) (s : SDLCState) :
    SDLCState :=
  { s with user_stories := revised
           current_stage := "user_stories_revised"
           iteration_count := s.iteration_count + 1
           timestamp := now
           review_feedback := none
           approval_status := .vstr "" }

/-- Model of `route_after_po_review_dynamic`. -/
def route_after_po_review_dynamic (settings : Settings) (s : SDLCState) : String :=
  if rvalEqStr s.approval_status "approve" then "create_design_documents"
  else if s.iteration_count ≥ settings.MAX_ITERATIONS then "create_design_documents"
  else "revise_user_stories"

-- ==================== nodes/design_review_node.py ====================

/-- Review dictionary built by `_handle_human_design_review_dynamic`. -/
def humanDesignReviewResult (now : String) (overall_decision : RVal)
    (feedback : String) (suggestions : List String) : ReviewResult :=
  { status := overall_decision
    feedback := if feedback = "" then
        "Human design review completed with decision: " ++ pyStr overall_decision
      else feedback
    reviewer := "Human"
    timestamp := now
    approval_status := overall_decision
    suggestions := suggestions
    extra := [("technical_score", .vint 8), ("completeness_score", .vint 8)]
    security_scan_results := []
    review_method := "human_dynamic" }

/-- Model of `_handle_human_design_review_dynamic`: decision, then feedback when not
approved, then suggestions when the feedback text is truthy. -/
def _handle_human_design_review_dynamic (now : String) : Susp ReviewResult :=
  .pause (mkInterrupt "human_design_review_decision" decisionOptions) fun overall_decision =>
    if rvalEqStr overall_decision "approve" then
      .done (humanDesignReviewResult now overall_decision "" [])
    else
      .pause (mkInterrupt "human_design_review_feedback" []) fun detailed_feedback =>
        let feedback := extractFeedback detailed_feedback
        if feedback ≠ "" then
          .pause (mkInterrupt "human_design_review_suggestions" []) fun suggestion_input =>
            let suggestions :=
              if pyTruthy suggestion_input && (pyStr suggestion_input).trim ≠ "" then
                [(pyStr suggestion_input).trim]
              else []
            .done (humanDesignReviewResult now overall_decision feedback suggestions)
        else
          .done (humanDesignReviewResult now overall_decision feedback [])

/-- Model of `_handle_auto_approve_design_dynamic`. -/
def _handle_auto_approve_design_dynamic (now : String) : ReviewResult :=
  { status := .vstr "approve"
    feedback := "Auto-approved by user choice - design review skipped"
    reviewer := "Auto"
    timestamp := now
    approval_status := .vstr "approve"
    suggestions := []
    extra := [("technical_score", .vint 7), ("completeness_score", .vint 7),
              ("overall_assessment", .vstr "Automatically approved without review")]
    security_scan_results := []
    review_method := "auto_dynamic" }

/-- Model of `_handle_ai_design_review_dynamic`: LLM result with stamped metadata, or
the auto-approve fallback on a raised exception. -/
def _handle_ai_design_review_dynamic (llm : Except Unit ReviewResult) (now : String) :
    ReviewResult :=
  match llm with
  | .ok r =>
      { r with reviewer := "AI", timestamp := now, approval_status := r.status,
               review_method := "ai_dynamic" }
  | .error _ => _handle_auto_approve_design_dynamic now

/-- The `review_record` appended by `design_review_dynamic`. -/
def designReviewRecord (s : SDLCState) (user_choice : RVal) (r : ReviewResult) :
    ReviewRecord :=
  { iteration := s.iteration_count
    stage := "design_review"
    reviewer := r.reviewer
    status := r.status
    feedback := r.feedback
    suggestions := r.suggestions
    timestamp := r.timestamp
    extra_scores := [("technical_score", extraGet r.extra "technical_score"),
                     ("completeness_score", extraGet r.extra "completeness_score")]
    review_method := user_choice }

/-- Tail of `design_review_dynamic`. -/
def designFinish (s : SDLCState) (user_choice : RVal) (r : ReviewResult) (now : String) :
    SDLCState :=
  { s with review_feedback := some r
           approval_status := r.status
           current_stage := "design_review_complete"
           timestamp := now
           review_history := s.review_history ++ [designReviewRecord s user_choice r] }

/-- Model of `design_review_dynamic`. -/
def design_review_dynamic (llm : Except Unit ReviewResult) (now : String)
    (s : SDLCState) : Susp SDLCState :=
  if s.design_docs.isEmpty then
    .done { s with approval_status := .vstr "approved",
                   current_stage := "design_review_complete",
                   timestamp := now }
  else
    .pause (mkInterrupt "design_review_choice" reviewChoiceOptions) fun user_choice =>
      let finish := fun (r : ReviewResult) => Susp.done (designFinish s user_choice r now)
      if rvalEqStr user_choice "human" then
        (_handle_human_design_review_dynamic now).bind finish
      else if rvalEqStr user_choice "ai" then
        finish (_handle_ai_design_review_dynamic llm now)
      else if rvalEqStr user_choice "auto" then
        finish (_handle_auto_approve_design_dynamic now)
      else
        finish (_handle_ai_design_review_dynamic llm now)

/-- Model of `revise_design_documents_dynamic`: swap in the revised documents, bump
the iteration count, reset the review fields. -/
def revise_design_documents_dynamic (revised : List (String × String)) (now : String)
    (s : SDLCState) : SDLCState :=
  { s with design_docs := revised
           current_stage := "design_documents_revised"
           iteration_count := s.iteration_count + 1
           timestamp := now
           review_feedback := none
           approval_status := .vstr "" }

/-- Model of `route_after_design_review_dynamic`. -/
def route_after_design_review_dynamic (settings : Settings) (s : SDLCState) : String :=
  if rvalEqStr s.approval_status "approve" then "generate_code"
  else if s.iteration_count ≥ settings.MAX_ITERATIONS then "generate_code"
  else "revise_design_documents"

-- ==================== nodes/code_review_node.py ====================

/-- Review dictionary built by `_handle_human_code_review_dynamic`. -/
def humanCodeReviewResult (now : String) (overall_decision : RVal)
    (feedback : String) (suggestions : List String) : ReviewResult :=
  { status := overall_decision
    feedback := if feedback = "" then
        "Human code review completed with decision: " ++ pyStr overall_decision
      else feedback
    reviewer := "Human"
    timestamp := now
    approval_status := overall_decision
    suggestions := suggestions
    extra := [("code_quality_score", .vint 8), ("maintainability_score", .vint 8)]
    security_scan_results := []
    review_method := "human_dynamic" }

/-- Model of `_handle_human_code_review_dynamic`. -/
def _handle_human_code_review_dynamic (now : String) : Susp ReviewResult :=
  .pause (mkInterrupt "human_code_review_decision" decisionOptions) fun overall_decision =>
    if rvalEqStr overall_decision "approve" then
      .done (humanCodeReviewResult now overall_decision "" [])
    else
      .pause (mkInterrupt "human_code_review_feedback" []) fun detailed_feedback =>
        let feedback := extractFeedback detailed_feedback
        if feedback ≠ "" then
          .pause (mkInterrupt "human_code_review_suggestions" []) fun suggestion_input =>
            let suggestions :=
              if pyTruthy suggestion_input && (pyStr suggestion_input).trim ≠ "" then
                [(pyStr suggestion_input).trim]
              else []
            .done (humanCodeReviewResult now overall_decision feedback suggestions)
        else
          .done (humanCodeReviewResult now overall_decision feedback [])

/-- Model of `_handle_auto_approve_code_dynamic`. -/
def _handle_auto_approve_code_dynamic (now : String) : ReviewResult :=
  { status := .vstr "approve"
    feedback := "Auto-approved by user choice - code review skipped"
    reviewer := "Auto"
    timestamp := now
    approval_status := .vstr "approve"
    suggestions := []
    extra := [("code_quality_score", .vint 7), ("maintainability_score", .vint 7),
              ("overall_assessment", .vstr "Automatically approved without review")]
    security_scan_results := []
    review_method := "auto_dynamic" }

/-- Model of `_handle_ai_code_review_dynamic`. -/
def _handle_ai_code_review_dynamic (llm : Except Unit ReviewResult) (now : String) :
    ReviewResult :=
  match llm with
  | .ok r =>
      { r with reviewer := "AI", timestamp := now, approval_status := r.status,
               review_method := "ai_dynamic" }
  | .error _ => _handle_auto_approve_code_dynamic now

/-- The `review_record` appended by `code_review_dynamic`. -/
def codeReviewRecord (s : SDLCState) (user_choice : RVal) (r : ReviewResult) :
    ReviewRecord :=
  { iteration := s.iteration_count
    stage := "code_review"
    reviewer := r.reviewer
    status := r.status
    feedback := r.feedback
    suggestions := r.suggestions
    timestamp := r.timestamp
    extra_scores := [("code_quality_score", extraGet r.extra "code_quality_score"),
                     ("maintainability_score", extraGet r.extra "maintainability_score")]
    review_method := user_choice }

/-- Tail of `code_review_dynamic`. -/
def codeFinish (s : SDLCState) (user_choice : RVal) (r : ReviewResult) (now : String) :
    SDLCState :=
  { s with review_feedback := some r
           approval_status := r.status
           current_stage := "code_review_complete"
           timestamp := now
           review_history := s.review_history ++ [codeReviewRecord s user_choice r] }

/-- Model of `code_review_dynamic`. -/
def code_review_dynamic (llm : Except Unit ReviewResult) (now : String)
    (s : SDLCState) : Susp SDLCState :=
  if s.code.isEmpty then
    .done { s with approval_status := .vstr "approved",
                   current_stage := "code_review_complete",
                   timestamp := now }
  else
    .pause (mkInterrupt "code_review_choice" reviewChoiceOptions) fun user_choice =>
      let finish := fun (r : ReviewResult) => Susp.done (codeFinish s user_choice r now)
      if rvalEqStr user_choice "human" then
        (_handle_human_code_review_dynamic now).bind finish
      else if rvalEqStr user_choice "ai" then
        finish (_handle_ai_code_review_dynamic llm now)
      else if rvalEqStr user_choice "auto" then
        finish (_handle_auto_approve_code_dynamic now)
      else
        finish (_handle_ai_code_review_dynamic llm now)

/-- Model of `fix_code_after_review_node.py`, `fix_code_after_review_dynamic`: skip
when there is no code or no review feedback, otherwise swap in the improved
code (`improved` is the result of `_generate_improved_code_files`), bump the
iteration count and reset the review fields. -/
def fix_code_after_review_dynamic (improved : List (String × String)) (now : String)
    (s : SDLCState) : SDLCState :=
  if s.code.isEmpty then
    { s with current_stage := "code_fix_failed", timestamp := now }
  else if s.review_feedback.isNone then
    { s with current_stage := "code_fix_skipped", timestamp := now }
  else
    { s with code := improved
             current_stage := "code_fixed_after_review"
             iteration_count := s.iteration_count + 1
             timestamp := now
             review_feedback := none
             approval_status := .vstr "" }

/-- Model of `route_after_code_review_dynamic`. -/
def route_after_code_review_dynamic (settings : Settings) (s : SDLCState) : String :=
  if rvalEqStr s.approval_status "approve" then "security_review"
  else if s.iteration_count ≥ settings.MAX_ITERATIONS then "security_review"
  else "fix_code_after_review"

-- ==================== nodes/security_review_node.py ====================

/-- Model of `_calculate_security_score`: base score from the decision, adjusted by
risk level, clamped to the 1..10 range. -/
def _calculate_security_score (decision : RVal) (risk_level : String) : Int :=
  let base_score : Int :=
    if rvalEqStr decision "approve" then 8
    else if rvalEqStr decision "request_changes" then 5
    else if rvalEqStr decision "reject" then 2
    else 6
  let risk_adjustment : Int :=
    if risk_level.toLower = "low" then 1
    else if risk_level.toLower = "medium" then 0
    else if risk_level.toLower = "high" then -2
    else 0
  max 1 (min 10 (base_score + risk_adjustment))

/-- Review dictionary built by `_handle_human_security_review_dynamic` once
decision, feedback, suggestions, vulnerability count and risk level are
known. -/
def humanSecurityReviewResult (now : String) (overall_decision : RVal)
    (feedback : String) (suggestions : List String)
    (vulnerability_count : Int) (risk_level : String) : ReviewResult :=
  { status := overall_decision
    feedback := if feedback = "" then
        "Human security review completed with decision: " ++ pyStr overall_decision
      else feedback
    reviewer := "Human"
    timestamp := now
    approval_status := overall_decision
    suggestions := suggestions
    extra := [("security_score", .vint (_calculate_security_score overall_decision risk_level)),
              ("vulnerability_count", .vint vulnerability_count),
              ("risk_level", .vstr risk_level)]
    security_scan_results :=
      [("scan_type", .vstr "human_review"),
       ("vulnerabilities_found", .vint vulnerability_count),
       ("risk_assessment", .vstr risk_level),
       ("manual_review_completed", .vbool true)]
    review_method := "human_dynamic" }

/-- The `{"low": 1, "medium": 3, "high": 5}.get(risk_level.lower(), 2)`
vulnerability estimate. -/
def estimateVulnerabilityCount (risk_level : String) : Int :=
  if risk_level.toLower = "low" then 1
  else if risk_level.toLower = "medium" then 3
  else if risk_level.toLower = "high" then 5
  else 2

/-- Model of `_handle_human_security_review_dynamic`: decision, then feedback when not
approved, then a combined risk-level/suggestions interrupt when the feedback
text is truthy. -/
def _handle_human_security_review_dynamic (now : String) : Susp ReviewResult :=
  .pause (mkInterrupt "human_security_review_decision" decisionOptions) fun overall_decision =>
    if rvalEqStr overall_decision "approve" then
      .done (humanSecurityReviewResult now overall_decision "" [] 0 "Low")
    else
      .pause (mkInterrupt "human_security_review_feedback" []) fun detailed_feedback =>
        let feedback := extractFeedback detailed_feedback
        if feedback ≠ "" then
          .pause (mkRiskInterrupt "human_security_risk_assessment") fun risk_assessment =>
            let risk_level :=
              match risk_assessment with
              | .vdict d => pyTitle (dictGet d "risk_level" "medium")
              | v => if pyTruthy v then pyTitle (pyStr v) else "Medium"
            let suggestions :=
              match risk_assessment with
              | .vdict d =>
                  let suggestion_text := dictGet d "suggestions" ""
                  if suggestion_text ≠ "" then [suggestion_text] else []
              | _ => []
            let vulnerability_count := estimateVulnerabilityCount risk_level
            .done (humanSecurityReviewResult now overall_decision feedback suggestions
              vulnerability_count risk_level)
        else
          .done (humanSecurityReviewResult now overall_decision feedback [] 0 "Low")

/-- Model of `_handle_auto_approve_security_dynamic`. -/
def _handle_auto_approve_security_dynamic (now : String) : ReviewResult :=
  { status := .vstr "approve"
    feedback := "Auto-approved by user choice - security review skipped"
    reviewer := "Auto"
    timestamp := now
    approval_status := .vstr "approve"
    suggestions := []
    extra := [("security_score", .vint 6), ("vulnerability_count", .vint 0),
              ("risk_level", .vstr "Unknown"),
              ("overall_assessment", .vstr "Security review skipped by user choice")]
    security_scan_results :=
      [("scan_type", .vstr "auto_approval"),
       ("vulnerabilities_found", .vint 0),
       ("risk_assessment", .vstr "Not Assessed"),
       ("review_skipped", .vbool true)]
    review_method := "auto_dynamic" }

/-- Model of `review_result.get(key, default)` with an explicit default, as used when
the AI security handler assembles its scan-result summary. -/
def extraGetD (d : List (String × RVal)) (key : String) (default : RVal) : RVal :=
  match d.lookup key with
  | some v => v
  | none => default

/-- Model of `_handle_ai_security_review_dynamic`: LLM result with stamped metadata
and an assembled scan-results dictionary, or the auto-approve fallback on a
raised exception.  The `detailed_vulnerabilities` entry (a list of nested
dictionaries) is presentation-only and not modelled. -/
def _handle_ai_security_review_dynamic (llm : Except Unit ReviewResult) (now : String) :
    ReviewResult :=
  match llm with
  | .ok r =>
      { r with reviewer := "AI", timestamp := now, approval_status := r.status,
               review_method := "ai_dynamic",
               security_scan_results :=
                 [("scan_type", .vstr "ai_security_analysis"),
                  ("vulnerabilities_found", extraGetD r.extra "vulnerability_count" (.vint 0)),
                  ("risk_assessment", extraGetD r.extra "risk_level" (.vstr "Low")),
                  ("automated_scan_completed", .vbool true)] }
  | .error _ => _handle_auto_approve_security_dynamic now

/-- The `review_record` appended by `security_review_dynamic`. -/
def securityReviewRecord (s : SDLCState) (user_choice : RVal) (r : ReviewResult) :
    ReviewRecord :=
  { iteration := s.iteration_count
    stage := "security_review"
    reviewer := r.reviewer
    status := r.status
    feedback := r.feedback
    suggestions := r.suggestions
    timestamp := r.timestamp
    extra_scores := [("security_score", extraGet r.extra "security_score"),
                     ("vulnerability_count", extraGet r.extra "vulnerability_count"),
                     ("risk_level", extraGet r.extra "risk_level")]
    review_method := user_choice }

/-- Tail of `security_review_dynamic` (also stores the scan results). -/
def securityFinish (s : SDLCState) (user_choice : RVal) (r : ReviewResult)
    (now : String) : SDLCState :=
  { s with review_feedback := some r
           approval_status := r.status
           current_stage := "security_review_complete"
           timestamp := now
           review_history := s.review_history ++ [securityReviewRecord s user_choice r]
           security_scan_results := r.security_scan_results }

/-- Model of `security_review_dynamic`. -/
def security_review_dynamic (llm : Except Unit ReviewResult) (now : String)
    (s : SDLCState) : Susp SDLCState :=
  if s.code.isEmpty then
    .done { s with approval_status := .vstr "approved",
                   current_stage := "security_review_complete",
                   timestamp := now }
  else
    .pause (mkInterrupt "security_review_choice" reviewChoiceOptions) fun user_choice =>
      let finish := fun (r : ReviewResult) => Susp.done (securityFinish s user_choice r now)
      if rvalEqStr user_choice "human" then
        (_handle_human_security_review_dynamic now).bind finish
      else if rvalEqStr user_choice "ai" then
        finish (_handle_ai_security_review_dynamic llm now)
      else if rvalEqStr user_choice "auto" then
        finish (_handle_auto_approve_security_dynamic now)
      else
        finish (_handle_ai_security_review_dynamic llm now)

/-- Model of `fix_code_after_security_node.py`, `fix_code_after_security_dynamic`:
skip when there is no code or no review feedback, otherwise swap in the
security-improved code, bump the iteration count, reset the review fields
and clear the previous scan results. -/
def fix_code_after_security_dynamic (improved : List (String × String)) (now : String)
    (s : SDLCState) : SDLCState :=
  if s.code.isEmpty then
    { s with current_stage := "security_fix_failed", timestamp := now }
  else if s.review_feedback.isNone then
    { s with current_stage := "security_fix_skipped", timestamp := now }
  else
    { s with code := improved
             current_stage := "code_fixed_after_security"
             iteration_count := s.iteration_count + 1
             timestamp := now
             review_feedback := none
             approval_status := .vstr ""
             security_scan_results := [] }

/-- Model of `route_after_security_review_dynamic`. -/
def route_after_security_review_dynamic (settings : Settings) (s : SDLCState) : String :=
  if rvalEqStr s.approval_status "approve" then "generate_test_cases"
  else if s.iteration_count ≥ settings.MAX_ITERATIONS then "generate_test_cases"
  else "fix_code_after_security"

-- ==================== nodes/test_cases_review_node.py ====================

/-- Accumulator of `_analyze_test_statistics` (the entries the review logic
reads; `assertion_types` and `test_categories` are unique-append lists). -/
structure TestStats where
  total_test_functions : Nat
  test_classes : Nat
  fixtures : Nat
  parametrized_tests : Nat
  mock_usage : Nat
  assertion_types : List String
  test_categories : List String
deriving Repr, DecidableEq

/-- Initial statistics dictionary of `_analyze_test_statistics`. -/
def emptyTestStats : TestStats :=
  { total_test_functions := 0, test_classes := 0, fixtures := 0,
    parametrized_tests := 0, mock_usage := 0, assertion_types := [],
    test_categories := [] }

/-- Per-line update of `_analyze_test_statistics`: the counter branch is an
if/elif chain over the stripped line; the assertion-type and category checks
run independently afterwards. -/
def testStatsLine (stats : TestStats) (line : String) : TestStats :=
  let stripped := line.trim
  let stats :=
    if stripped.startsWith "def test_" then
      { stats with total_test_functions := stats.total_test_functions + 1 }
    else if stripped.startsWith "class Test" then
      { stats with test_classes := stats.test_classes + 1 }
    else if pyIn "@pytest.fixture" stripped then
      { stats with fixtures := stats.fixtures + 1 }
    else if pyIn "@pytest.mark.parametrize" stripped then
      { stats with parametrized_tests := stats.parametrized_tests + 1 }
    else if pyIn "Mock" stripped || pyIn "mock" stripped then
      { stats with mock_usage := stats.mock_usage + 1 }
    else stats
  let stats :=
    if pyIn "assert " stripped then
      if !(pyIn "assert_" stripped) then
        { stats with assertion_types := addUnique stats.assertion_types "basic_assert" }
      else
        { stats with assertion_types := addUnique stats.assertion_types "custom_assert" }
    else stats
  let stats :=
    if pyIn "pytest.raises" stripped then
      { stats with test_categories := addUnique stats.test_categories "exception_testing" }
    else stats
  let stats :=
    if pyIn "integration" stripped.toLower then
      { stats with test_categories := addUnique stats.test_categories "integration_tests" }
    else stats
  if pyIn "user_story" stripped.toLower || pyIn "acceptance" stripped.toLower then
    { stats with test_categories := addUnique stats.test_categories "user_story_tests" }
  else stats

/-- Model of `_analyze_test_statistics` over every line of every test file. -/
def _analyze_test_statistics (test_cases : List (String × String)) : TestStats :=
  test_cases.foldl (fun st file => (file.2.splitOn "\n").foldl testStatsLine st)
    emptyTestStats

/-- Result of `_calculate_test_quality_scores`. -/
structure TestQualityScores where
  quality : Int
  coverage : Int
  completeness : Int
deriving Repr, DecidableEq

/-- Model of `_calculate_test_quality_scores`: decision-based base scores, practice
bonuses, a gap penalty capped at 3, and a final clamp to 1..10. -/
def _calculate_test_quality_scores (decision : RVal) (stats : TestStats)
    (test_gaps : List String) : TestQualityScores :=
  let base : Int × Int × Int :=
    if rvalEqStr decision "approve" then (8, 8, 8)
    else if rvalEqStr decision "request_changes" then (6, 5, 6)
    else if rvalEqStr decision "reject" then (3, 3, 3)
    else (6, 6, 6)
  let quality := base.1 + (if stats.fixtures > 0 then 1 else 0)
    + (if stats.mock_usage > 0 then 1 else 0)
  let coverage := base.2.1 + (if stats.parametrized_tests > 0 then 1 else 0)
  let completeness := base.2.2 + (if stats.test_categories.length > 3 then 1 else 0)
  let gap_penalty : Int := min (test_gaps.length : Int) 3
  let coverage := max 1 (coverage - gap_penalty)
  let completeness := max 1 (completeness - gap_penalty)
  { quality := max 1 (min 10 quality)
    coverage := max 1 (min 10 coverage)
    completeness := max 1 (min 10 completeness) }

/-- Review dictionary built by `_handle_human_test_review_dynamic`. -/
def humanTestReviewResult (now : String) (overall_decision : RVal)
    (feedback : String) (suggestions : List String) (test_gaps : List String)
    (stats : TestStats) : ReviewResult :=
  let quality_scores := _calculate_test_quality_scores overall_decision stats test_gaps
  { status := overall_decision
    feedback := if feedback = "" then
        "Human test review completed with decision: " ++ pyStr overall_decision
      else feedback
    reviewer := "Human"
    timestamp := now
    approval_status := overall_decision
    suggestions := suggestions
    extra := [("test_quality_score", .vint quality_scores.quality),
              ("coverage_score", .vint quality_scores.coverage),
              ("completeness_score", .vint quality_scores.completeness),
              ("test_gaps_identified", .vlist test_gaps)]
    security_scan_results := []
    review_method := "human_dynamic" }

/-- Model of `_handle_human_test_review_dynamic`: decision, then feedback when not
approved, then the improvement-suggestions interrupt when the feedback text
is truthy, with keyword-based gap extraction from the suggestion. -/
def _handle_human_test_review_dynamic (now : String) (s : SDLCState) : Susp ReviewResult :=
  let stats := _analyze_test_statistics s.test_cases
  .pause (mkInterrupt "human_test_review_decision" decisionOptions) fun overall_decision =>
    if rvalEqStr overall_decision "approve" then
      .done (humanTestReviewResult now overall_decision "" [] [] stats)
    else
      .pause (mkInterrupt "human_test_review_feedback" []) fun detailed_feedback =>
        let feedback := extractFeedback detailed_feedback
        if feedback ≠ "" then
          .pause (mkInterrupt "human_test_improvement_suggestions" []) fun improvement_suggestions =>
            if pyTruthy improvement_suggestions && (pyStr improvement_suggestions).trim ≠ "" then
              let suggestions := [(pyStr improvement_suggestions).trim]
              let suggestion_text := (pyStr improvement_suggestions).toLower
              let test_gaps :=
                (if pyIn "coverage" suggestion_text then ["Test Coverage"] else [])
                ++ (if pyIn "edge case" suggestion_text then ["Edge Cases"] else [])
                ++ (if pyIn "integration" suggestion_text then ["Integration Tests"] else [])
                ++ (if pyIn "error" suggestion_text || pyIn "exception" suggestion_text then
                      ["Error Handling"] else [])
              .done (humanTestReviewResult now overall_decision feedback suggestions
                test_gaps stats)
            else
              .done (humanTestReviewResult now overall_decision feedback [] [] stats)
        else
          .done (humanTestReviewResult now overall_decision feedback [] [] stats)

/-- Model of `_handle_auto_approve_test_dynamic`. -/
def _handle_auto_approve_test_dynamic (now : String) : ReviewResult :=
  { status := .vstr "approve"
    feedback := "Auto-approved by user choice - test review skipped"
    reviewer := "Auto"
    timestamp := now
    approval_status := .vstr "approve"
    suggestions := []
    extra := [("test_quality_score", .vint 7), ("coverage_score", .vint 7),
              ("completeness_score", .vint 7), ("test_gaps_identified", .vlist []),
              ("overall_assessment", .vstr "Test cases automatically approved without review")]
    security_scan_results := []
    review_method := "auto_dynamic" }

/-- Model of `_handle_ai_test_review_dynamic`. -/
def _handle_ai_test_review_dynamic (llm : Except Unit ReviewResult) (now : String) :
    ReviewResult :=
  match llm with
  | .ok r =>
      { r with reviewer := "AI", timestamp := now, approval_status := r.status,
               review_method := "ai_dynamic" }
  | .error _ => _handle_auto_approve_test_dynamic now

/-- The `review_record` appended by `test_cases_review_dynamic`. -/
def testReviewRecord (s : SDLCState) (user_choice : RVal) (r : ReviewResult) :
    ReviewRecord :=
  { iteration := s.iteration_count
    stage := "test_cases_review"
    reviewer := r.reviewer
    status := r.status
    feedback := r.feedback
    suggestions := r.suggestions
    timestamp := r.timestamp
    extra_scores := [("test_quality_score", extraGet r.extra "test_quality_score"),
                     ("coverage_score", extraGet r.extra "coverage_score"),
                     ("completeness_score", extraGet r.extra "completeness_score")]
    review_method := user_choice }

/-- Tail of `test_cases_review_dynamic`. -/
def testFinish (s : SDLCState) (user_choice : RVal) (r : ReviewResult) (now : String) :
    SDLCState :=
  { s with review_feedback := some r
           approval_status := r.status
           current_stage := "test_cases_review_complete"
           timestamp := now
           review_history := s.review_history ++ [testReviewRecord s user_choice r] }

/-- Model of `test_cases_review_dynamic`. -/
def test_cases_review_dynamic (llm : Except Unit ReviewResult) (now : String)
    (s : SDLCState) : Susp SDLCState :=
  if s.test_cases.isEmpty then
    .done { s with approval_status := .vstr "approved",
                   current_stage := "test_cases_review_complete",
                   timestamp := now }
  else
    .pause (mkInterrupt "test_cases_review_choice" reviewChoiceOptions) fun user_choice =>
      let finish := fun (r : ReviewResult) => Susp.done (testFinish s user_choice r now)
      if rvalEqStr user_choice "human" then
        (_handle_human_test_review_dynamic now s).bind finish
      else if rvalEqStr user_choice "ai" then
        finish (_handle_ai_test_review_dynamic llm now)
      else if rvalEqStr user_choice "auto" then
        finish (_handle_auto_approve_test_dynamic now)
      else
        finish (_handle_ai_test_review_dynamic llm now)

/-- Model of `revise_test_cases_node.py`, `revise_test_cases_dynamic`: skip when
there are no test cases or no review feedback, otherwise swap in the
improved tests, bump the iteration count and reset the review fields. -/
def revise_test_cases_dynamic (improved : List (String × String)) (now : String)
    (s : SDLCState) : SDLCState :=
  if s.test_cases.isEmpty then
    { s with current_stage := "test_revision_failed", timestamp := now }
  else if s.review_feedback.isNone then
    { s with current_stage := "test_revision_skipped", timestamp := now }
  else
    { s with test_cases := improved
             current_stage := "test_cases_revised"
             iteration_count := s.iteration_count + 1
             timestamp := now
             review_feedback := none
             approval_status := .vstr "" }

/-- Model of `route_after_test_review_dynamic`. -/
def route_after_test_review_dynamic (settings : Settings) (s : SDLCState) : String :=
  if rvalEqStr s.approval_status "approve" then "deployment"
  else if s.iteration_count ≥ settings.MAX_ITERATIONS then "deployment"
  else "revise_test_cases"

-- ==================== remaining workflow stages ====================

/-- Model of `requirements_node.py`, `ui_user_inputs_requirements`: enhance the raw
requirements (`llm` carries the completion of
`_validate_and_enhance_requirements`, which substitutes a fallback document
on a raised exception), reset the iteration count and mark the approval
status pending. -/
def ui_user_inputs_requirements (llm : Except Unit String) (now : String)
    (s : SDLCState) : SDLCState :=
  let enhanced_requirements :=
    match llm with
    | .ok t => t
    | .error _ =>
        "REQUIREMENTS DOCUMENT (Fallback) Original Requirements: " ++ s.requirements
          ++ " Note: Enhanced analysis unavailable due to API error. "
          ++ "Please review and enhance manually before proceeding."
  { s with requirements := enhanced_requirements
           current_stage := "requirements_captured"
           timestamp := now
           iteration_count := 0
           approval_status := .vstr "pending" }

/-- Model of `user_stories_node.py`, `auto_generate_user_stories` (`stories` is the
result of `_generate_stories_from_requirements`, which handles its own LLM
fallback). -/
def auto_generate_user_stories (stories : List Story) (now : String) (s : SDLCState) :
    SDLCState :=
  { s with user_stories := stories
           current_stage := "user_stories_generated"
           timestamp := now }

/-- Model of `design_documents_node.py`, `create_design_documents`: fails early
without user stories, otherwise stores the consolidated design document. -/
def create_design_documents (docs : List (String × String)) (now : String)
    (s : SDLCState) : SDLCState :=
  if s.user_stories.isEmpty then
    { s with current_stage := "design_documents_failed", timestamp := now }
  else
    { s with design_docs := docs
             current_stage := "design_documents_created"
             timestamp := now }

/-- Model of `generate_code_node.py`, `generate_code`: fails early without design
documents, otherwise stores the single generated `main.py`. -/
def generate_code (python_code : String) (now : String) (s : SDLCState) : SDLCState :=
  if s.design_docs.isEmpty then
    { s with current_stage := "code_generation_failed", timestamp := now }
  else
    { s with code := [("main.py", python_code)]
             current_stage := "code_generated"
             timestamp := now }

/-- Model of `test_cases_generation_node.py`, `generate_test_cases`: fails early
without code files, otherwise stores the generated test files. -/
def generate_test_cases (tests : List (String × String)) (now : String)
    (s : SDLCState) : SDLCState :=
  if s.code.isEmpty then
    { s with current_stage := "test_generation_failed", timestamp := now }
  else
    { s with test_cases := tests
             current_stage := "test_cases_generated"
             timestamp := now }

/-- Model of `deployment_node.py`, `deployment`: marks the workflow complete.  The
deployment-status dictionary keeps its scalar entries; the artifact-count
and file-name-list entries are presentation-only and not modelled. -/
def deployment (now : String) (s : SDLCState) : SDLCState :=
  { s with deployment_status := .vdict [("status", "ready_for_deployment"),
                                        ("deployment_timestamp", now)]
           current_stage := "deployment_complete"
           timestamp := now }

-- ==================== the dynamic-interrupt workflow as a run model ====================

/-- One execution of a node of `workflow/dynamic_interrupt_workflow.py`,
bundled with its external inputs: the delegated-LLM outcome, the produced
artifact where the node generates one, the wall-clock stamp, and — for the
suspending review stages — the resume values supplied across the run. -/
inductive Stage where
  | requirementsNode (llm : Except Unit String) (now : String)
  | genStories (stories : List Story) (now : String)
  | poReview (llm : Except Unit ReviewResult) (now : String) (resumes : List RVal)
  | reviseStories (revised : List Story) (now : String)
  | createDesign (docs : List (String × String)) (now : String)
  | designReview (llm : Except Unit ReviewResult) (now : String) (resumes : List RVal)
  | reviseDesign (revised : List (String × String)) (now : String)
  | genCode (python_code : String) (now : String)
  | codeReview (llm : Except Unit ReviewResult) (now : String) (resumes : List RVal)
  | fixCode (improved : List (String × String)) (now : String)
  | securityReview (llm : Except Unit ReviewResult) (now : String) (resumes : List RVal)
  | fixCodeSecurity (improved : List (String × String)) (now : String)
  | genTests (tests : List (String × String)) (now : String)
  | testReview (llm : Except Unit ReviewResult) (now : String) (resumes : List RVal)
  | reviseTests (improved : List (String × String)) (now : String)
  | deploy (now : String)

/-- Execute one stage; a suspending review stage completes only when its
resume values drive it to the end (`none` models a run that is still
paused). -/
def applyStage : Stage → SDLCState → Option SDLCState
  | .requirementsNode llm now, s => some (ui_user_inputs_requirements llm now s)
  | .genStories stories now, s => some (auto_generate_user_stories stories now s)
  | .poReview llm now resumes, s => (product_owner_review_dynamic llm now s).runAll resumes
  | .reviseStories revised now, s => some (revise_user_stories_dynamic revised now s)
  | .createDesign docs now, s => some (create_design_documents docs now s)
  | .designReview llm now resumes, s => (design_review_dynamic llm now s).runAll resumes
  | .reviseDesign revised now, s => some (revise_design_documents_dynamic revised now s)
  | .genCode python_code now, s => some (generate_code python_code now s)
  | .codeReview llm now resumes, s => (code_review_dynamic llm now s).runAll resumes
  | .fixCode improved now, s => some (fix_code_after_review_dynamic improved now s)
  | .securityReview llm now resumes, s => (security_review_dynamic llm now s).runAll resumes
  | .fixCodeSecurity improved now, s => some (fix_code_after_security_dynamic improved now s)
  | .genTests tests now, s => some (generate_test_cases tests now s)
  | .testReview llm now resumes, s => (test_cases_review_dynamic llm now s).runAll resumes
  | .reviseTests improved now, s => some (revise_test_cases_dynamic improved now s)
  | .deploy now, s => some (deployment now s)

/-- Execute a sequence of stage executions, stopping if one stays paused. -/
def runStages : List Stage → SDLCState → Option SDLCState
  | [], s => some s
  | st :: rest, s =>
      match applyStage st s with
      | none => none
      | some s2 => runStages rest s2

/-- The delegated review returned a decision drawn from the advertised
decision options (the shape the review prompts instruct the LLM to
produce). -/
def LlmStatusOK (llm : Except Unit ReviewResult) : Prop :=
  ∀ r, llm = .ok r → ∃ t, r.status = RVal.vstr t ∧ t ∈ decisionOptions

/-- Hygiene of one stage execution: resume values respect the option keys of
the pauses they answer, and delegated review decisions are drawn from the
decision options. -/
def StageValid : Stage → SDLCState → Prop
  | .poReview llm now resumes, s =>
      LlmStatusOK llm ∧ (product_owner_review_dynamic llm now s).ValidResumes resumes
  | .designReview llm now resumes, s =>
      LlmStatusOK llm ∧ (design_review_dynamic llm now s).ValidResumes resumes
  | .codeReview llm now resumes, s =>
      LlmStatusOK llm ∧ (code_review_dynamic llm now s).ValidResumes resumes
  | .securityReview llm now resumes, s =>
      LlmStatusOK llm ∧ (security_review_dynamic llm now s).ValidResumes resumes
  | .testReview llm now resumes, s =>
      LlmStatusOK llm ∧ (test_cases_review_dynamic llm now s).ValidResumes resumes
  | _, _ => True

/-- Hygiene of a whole run, stage by stage along the states it reaches. -/
def AllValid : List Stage → SDLCState → Prop
  | [], _ => True
  | st :: rest, s =>
      StageValid st s ∧ ∀ s2, applyStage st s = some s2 → AllValid rest s2

-- ==================== utils/dynamic_workflow_runner.py ====================

/-- The `while True: choice = input(...).strip().lower()` validation loop
shared by the choice/decision resolvers: the first console entry whose
stripped lowercased text is an option key; `none` models a loop that never
received a valid entry. -/
def firstValidChoice (options : List String) : List String → Option String
  | [] => none
  | i :: rest =>
      let choice := i.trim.toLower
      if options.contains choice then some choice else firstValidChoice options rest

/-- Same loop without the lowercasing (the generic resolver strips only). -/
def firstValidChoiceStrip (options : List String) : List String → Option String
  | [] => none
  | i :: rest =>
      let choice := i.trim
      if options.contains choice then some choice else firstValidChoiceStrip options rest

/-- Model of `_handle_review_choice_interrupt`. -/
def _handle_review_choice_interrupt (d : InterruptData) (inputs : List String) : Option RVal :=
  (firstValidChoice d.options inputs).map RVal.vstr

/-- Model of `_handle_human_review_decision`. -/
def _handle_human_review_decision (d : InterruptData) (inputs : List String) : Option RVal :=
  (firstValidChoice d.options inputs).map RVal.vstr

/-- Model of `_handle_human_review_feedback`: one console entry, wrapped in a
feedback dictionary with a default for empty input. -/
def _handle_human_review_feedback (_d : InterruptData) (inputs : List String) : Option RVal :=
  match inputs with
  | [] => none
  | f :: _ =>
      let feedback := f.trim
      some (.vdict [("feedback",
        if feedback = "" then "No specific feedback provided" else feedback)])

/-- Model of `_handle_human_review_suggestions`: one console entry, stripped (an
empty entry skips the suggestion). -/
def _handle_human_review_suggestions (_d : InterruptData) (inputs : List String) : Option RVal :=
  match inputs with
  | [] => none
  | sg :: _ => some (.vstr sg.trim)

/-- Model of `_handle_security_review_choice_interrupt`. -/
def _handle_security_review_choice_interrupt (d : InterruptData) (inputs : List String) :
    Option RVal :=
  (firstValidChoice d.options inputs).map RVal.vstr

/-- Model of `_handle_human_security_review_decision`. -/
def _handle_human_security_review_decision (d : InterruptData) (inputs : List String) :
    Option RVal :=
  (firstValidChoice d.options inputs).map RVal.vstr

/-- Model of `_handle_human_security_review_feedback`. -/
def _handle_human_security_review_feedback (_d : InterruptData) (inputs : List String) :
    Option RVal :=
  match inputs with
  | [] => none
  | f :: _ =>
      let feedback := f.trim
      some (.vdict [("feedback",
        if feedback = "" then "No specific security feedback provided" else feedback)])

/-- The risk-option validation loop of `_handle_human_security_risk_assessment`:
once a valid risk level arrives, the next console entry is the optional
suggestion text. -/
def riskAssessmentLoop (ropts : List String) : List String → Option RVal
  | [] => none
  | r :: rest =>
      let risk_choice := r.trim.toLower
      if ropts.contains risk_choice then
        match rest with
        | [] => none
        | sg :: _ =>
            let suggestions := sg.trim
            some (.vdict [("risk_level", risk_choice),
                          ("suggestions", if suggestions = "" then "" else suggestions)])
      else riskAssessmentLoop ropts rest

/-- Model of `_handle_human_security_risk_assessment`: dictionary result when risk
options are offered, otherwise a bare suggestion string defaulting to
"medium". -/
def _handle_human_security_risk_assessment (d : InterruptData) (inputs : List String) :
    Option RVal :=
  if d.risk_options ≠ [] then riskAssessmentLoop d.risk_options inputs
  else
    match inputs with
    | [] => none
    | sg :: _ =>
        let suggestion := sg.trim
        some (.vstr (if suggestion = "" then "medium" else suggestion))

/-- Model of `_handle_test_cases_review_choice_interrupt`. -/
def _handle_test_cases_review_choice_interrupt (d : InterruptData) (inputs : List String) :
    Option RVal :=
  (firstValidChoice d.options inputs).map RVal.vstr

/-- Model of `_handle_human_test_review_decision`. -/
def _handle_human_test_review_decision (d : InterruptData) (inputs : List String) :
    Option RVal :=
  (firstValidChoice d.options inputs).map RVal.vstr

/-- Model of `_handle_human_test_review_feedback`. -/
def _handle_human_test_review_feedback (_d : InterruptData) (inputs : List String) :
    Option RVal :=
  match inputs with
  | [] => none
  | f :: _ =>
      let feedback := f.trim
      some (.vdict [("feedback",
        if feedback = "" then "No specific test feedback provided" else feedback)])

/-- Model of `_handle_human_test_improvement_suggestions`: the function body collects
and echoes the suggestion but has no return statement, so the Python
function returns `None` whatever the console entry was. -/
def _handle_human_test_improvement_suggestions (_d : InterruptData) (inputs : List String) :
    Option RVal :=
  match inputs with
  | [] => none
  | _ :: _ => some RVal.vnone

/-- Model of `_handle_design_review_choice_interrupt`. -/
def _handle_design_review_choice_interrupt (d : InterruptData) (inputs : List String) :
    Option RVal :=
  (firstValidChoice d.options inputs).map RVal.vstr

/-- Model of `_handle_human_design_review_decision`. -/
def _handle_human_design_review_decision (d : InterruptData) (inputs : List String) :
    Option RVal :=
  (firstValidChoice d.options inputs).map RVal.vstr

/-- Model of `_handle_human_design_review_feedback`. -/
def _handle_human_design_review_feedback (_d : InterruptData) (inputs : List String) :
    Option RVal :=
  match inputs with
  | [] => none
  | f :: _ =>
      let feedback := f.trim
      some (.vdict [("feedback",
        if feedback = "" then "No specific technical feedback provided" else feedback)])

/-- Model of `_handle_human_design_review_suggestions`. -/
def _handle_human_design_review_suggestions (_d : InterruptData) (inputs : List String) :
    Option RVal :=
  match inputs with
  | [] => none
  | sg :: _ => some (.vstr sg.trim)

/-- Model of `_handle_code_review_choice_interrupt`. -/
def _handle_code_review_choice_interrupt (d : InterruptData) (inputs : List String) :
    Option RVal :=
  (firstValidChoice d.options inputs).map RVal.vstr

/-- Model of `_handle_human_code_review_decision`. -/
def _handle_human_code_review_decision (d : InterruptData) (inputs : List String) :
    Option RVal :=
  (firstValidChoice d.options inputs).map RVal.vstr

/-- Model of `_handle_human_code_review_feedback`. -/
def _handle_human_code_review_feedback (_d : InterruptData) (inputs : List String) :
    Option RVal :=
  match inputs with
  | [] => none
  | f :: _ =>
      let feedback := f.trim
      some (.vdict [("feedback",
        if feedback = "" then "No specific code feedback provided" else feedback)])

/-- Model of `_handle_human_code_review_suggestions`. -/
def _handle_human_code_review_suggestions (_d : InterruptData) (inputs : List String) :
    Option RVal :=
  match inputs with
  | [] => none
  | sg :: _ => some (.vstr sg.trim)

/-- Model of `_handle_generic_interrupt`: option-validated entry when options are
offered (strip only, no lowercasing), otherwise the next entry verbatim
(stripped). -/
def _handle_generic_interrupt (d : InterruptData) (inputs : List String) : Option RVal :=
  if d.options ≠ [] then (firstValidChoiceStrip d.options inputs).map RVal.vstr
  else
    match inputs with
    | [] => none
    | r :: _ => some (.vstr r.trim)

/-- The interrupt-type tags that `_handle_single_interrupt` dispatches on
explicitly. -/
def knownInterruptTypes : List String :=
  ["review_choice", "human_review_decision", "human_review_feedback",
   "human_review_suggestions",
   "design_review_choice", "human_design_review_decision",
   "human_design_review_feedback", "human_design_review_suggestions",
   "code_review_choice", "human_code_review_decision",
   "human_code_review_feedback", "human_code_review_suggestions",
   "security_review_choice", "human_security_review_decision",
   "human_security_review_feedback", "human_security_risk_assessment",
   "test_cases_review_choice", "human_test_review_decision",
   "human_test_review_feedback", "human_test_improvement_suggestions"]

/-- Model of `_handle_single_interrupt`: route on the payload type tag, with the
generic resolver as the final else branch. -/
def _handle_single_interrupt (d : InterruptData) (inputs : List String) : Option RVal :=
  let interrupt_type := d.ptype
  if interrupt_type = "review_choice" then _handle_review_choice_interrupt d inputs
  else if interrupt_type = "human_review_decision" then _handle_human_review_decision d inputs
  else if interrupt_type = "human_review_feedback" then _handle_human_review_feedback d inputs
  else if interrupt_type = "human_review_suggestions" then
    _handle_human_review_suggestions d inputs
  else if interrupt_type = "design_review_choice" then
    _handle_design_review_choice_interrupt d inputs
  else if interrupt_type = "human_design_review_decision" then
    _handle_human_design_review_decision d inputs
  else if interrupt_type = "human_design_review_feedback" then
    _handle_human_design_review_feedback d inputs
  else if interrupt_type = "human_design_review_suggestions" then
    _handle_human_design_review_suggestions d inputs
  else if interrupt_type = "code_review_choice" then
    _handle_code_review_choice_interrupt d inputs
  else if interrupt_type = "human_code_review_decision" then
    _handle_human_code_review_decision d inputs
  else if interrupt_type = "human_code_review_feedback" then
    _handle_human_code_review_feedback d inputs
  else if interrupt_type = "human_code_review_suggestions" then
    _handle_human_code_review_suggestions d inputs
  else if interrupt_type = "security_review_choice" then
    _handle_security_review_choice_interrupt d inputs
  else if interrupt_type = "human_security_review_decision" then
    _handle_human_security_review_decision d inputs
  else if interrupt_type = "human_security_review_feedback" then
    _handle_human_security_review_feedback d inputs
  else if interrupt_type = "human_security_risk_assessment" then
    _handle_human_security_risk_assessment d inputs
  else if interrupt_type = "test_cases_review_choice" then
    _handle_test_cases_review_choice_interrupt d inputs
  else if interrupt_type = "human_test_review_decision" then
    _handle_human_test_review_decision d inputs
  else if interrupt_type = "human_test_review_feedback" then
    _handle_human_test_review_feedback d inputs
  else if interrupt_type = "human_test_improvement_suggestions" then
    _handle_human_test_improvement_suggestions d inputs
  else _handle_generic_interrupt d inputs

-- ==================== review-history aliasing model ====================

/-- Heap of Python list objects, for making the list aliasing of
`review_history` observable: cell `i` is the list object at address `i`. -/
abbrev ListHeap := List (List ReviewRecord)

/-- Read a heap cell. -/
def heapGet (h : ListHeap) (addr : Nat) : List ReviewRecord := h.getD addr []

/-- Overwrite a heap cell. -/
def heapSet (h : ListHeap) (addr : Nat) (l : List ReviewRecord) : ListHeap :=
  h.set addr l

/-- Tail of `product_owner_review_dynamic` with the `review_history.append`
made explicit as a heap mutation: `addr` is the address of the list object
the input state binds to `review_history`; the output state keeps that same
object. -/
def poFinishRef (h : ListHeap) (addr : Nat) (s : SDLCState) (user_choice : RVal)
    (r : ReviewResult) (now : String) : ListHeap × SDLCState :=
  let review_history := heapGet h addr
  let appended := review_history ++ [poReviewRecord s user_choice r]
  (heapSet h addr appended,
   { s with review_feedback := some r
            approval_status := r.status
            current_stage := "product_owner_review_complete"
            timestamp := now
            review_history := appended })

/-- Model of `product_owner_review_dynamic` over the aliasing model: identical
control flow to `product_owner_review_dynamic`, with the input review-history
list read from and written back to the heap cell it aliases. -/
def product_owner_review_dynamic_ref (llm : Except Unit ReviewResult) (now : String)
    (h : ListHeap) (addr : Nat) (s : SDLCState) : Susp (ListHeap × SDLCState) :=
  if s.user_stories.isEmpty then
    .done (h, { s with approval_status := .vstr "approved",
                       current_stage := "product_owner_review_complete",
                       timestamp := now })
  else
    .pause (mkInterrupt "review_choice" reviewChoiceOptions) fun user_choice =>
      let finish := fun (r : ReviewResult) =>
        Susp.done (poFinishRef h addr s user_choice r now)
      if rvalEqStr user_choice "human" then
        (_handle_human_review_dynamic now).bind finish
      else if rvalEqStr user_choice "ai" then
        finish (_handle_ai_review_dynamic llm now)
      else if rvalEqStr user_choice "auto" then
        finish (_handle_auto_approve_dynamic now)
      else
        finish (_handle_ai_review_dynamic llm now)

/-- Statuses actually reachable for `approval_status` in the dynamic workflow. -/
def GoodStatus (v : RVal) : Prop :=
  v ∈ ([.vstr "", .vstr "approve", .vstr "request_changes", .vstr "reject",
        .vstr "pending", .vstr "approved"] : List RVal)

/-- A concrete state with one user story and one file of each artifact kind,
used to evaluate the theorems below on executable inputs. -/
def baseState : SDLCState :=
  { requirements := "Build a todo app"
    user_stories := [{ id := "US-001", title := "Login", description := "As a user I log in",
                       priority := "High", story_points := "3",
                       acceptance_criteria := ["two-factor"], business_value := "High" }]
    design_docs := [("title", "Technical Design Document")]
    code := [("main.py", "print(1)")]
    test_cases := [("test_main.py", "def test_a(): pass")]
    review_feedback := none
    approval_status := .vstr ""
    current_stage := "initialized"
    iteration_count := 0
    review_history := []
    project_id := "sdlc-demo"
    timestamp := "t0"
    stakeholders := []
    security_scan_results := []
    test_results := []
    deployment_status := .vstr "" }

/-- States used as concrete counterexample inputs: a review stage invoked
with no artifacts to review, revision stages invoked with missing inputs. -/
def noStoriesState : SDLCState := { baseState with user_stories := [] }

def noCodeState : SDLCState := { baseState with code := [] }

def noTestsState : SDLCState :=
  { baseState with test_cases := [], approval_status := .vstr "request_changes" }

/-- The concrete post-state of the run used to witness the aliasing
characterization. -/
def c7Post : ListHeap × SDLCState :=
  poFinishRef [[]] 0 baseState (RVal.vstr "auto") (_handle_auto_approve_dynamic "t1") "t1"

/-- A concrete unknown-typed payload for evaluating the dispatcher. -/
def unknownPayload : InterruptData :=
  { ptype := "pause_for_input", options := [], risk_options := [] }

-- ==================== theorems ====================

namespace Susp

theorem drive_done (a : α) (vs : List RVal) : drive (done a) vs = done a := by
  induction vs with
  | nil => rfl
  | cons v vs ih => simpa [drive, step] using ih

theorem drive_eq_done_iff_runAll (c : Susp α) (vs : List RVal) (a : α) :
    drive c vs = done a ↔ runAll c vs = some a := by
  induction vs generalizing c with
  | nil =>
    cases c with
    | done b => simp [drive, runAll]
    | pause p k => simp [drive, runAll]
  | cons v vs ih =>
    cases c with
    | done b =>
      simp only [runAll, Option.some.injEq]
      rw [show drive (done b) (v :: vs) = drive (done b) vs by rfl, drive_done]
      simp
    | pause p k =>
      show drive (k v) vs = done a ↔ runAll (k v) vs = some a
      exact ih (k v)

theorem leaves_runAll {P : α → Prop} (c : Susp α) (vs : List RVal) (a : α)
    (hL : Leaves P c) (h : runAll c vs = some a) : P a := by
  induction vs generalizing c with
  | nil =>
    cases c with
    | done b => simp [runAll] at h; exact h ▸ hL
    | pause p k => simp [runAll] at h
  | cons v vs ih =>
    cases c with
    | done b => simp [runAll] at h; exact h ▸ hL
    | pause p k => exact ih (k v) (hL v) h

theorem goodTree_runAll {P : α → Prop} (c : Susp α) (vs : List RVal) (a : α)
    (hG : GoodTree P c) (hV : ValidResumes c vs) (h : runAll c vs = some a) : P a := by
  induction vs generalizing c with
  | nil =>
    cases c with
    | done b => simp [runAll] at h; exact h ▸ hG
    | pause p k => simp [runAll] at h
  | cons v vs ih =>
    cases c with
    | done b => simp [runAll] at h; exact h ▸ hG
    | pause p k => exact ih (k v) (hG v hV.1) hV.2 h

theorem leaves_bind {P : β → Prop} {Q : α → Prop} (c : Susp α) (f : α → Susp β)
    (hc : Leaves Q c) (hf : ∀ a, Q a → Leaves P (f a)) : Leaves P (bind c f) := by
  induction c with
  | done a => exact hf a hc
  | pause p k ih => intro v; exact ih v (hc v)

theorem goodTree_bind {P : β → Prop} {Q : α → Prop} (c : Susp α) (f : α → Susp β)
    (hc : GoodTree Q c) (hf : ∀ a, Q a → GoodTree P (f a)) : GoodTree P (bind c f) := by
  induction c with
  | done a => exact hf a hc
  | pause p k ih => intro v hv; exact ih v (hc v hv)

end Susp

theorem runAll_done {α : Type} (a : α) (vs : List RVal) : (Susp.done a).runAll vs = some a := by
  cases vs <;> rfl

theorem leaves_true {α : Type} (c : Susp α) : Susp.Leaves (fun _ => True) c := by
  induction c with
  | done a => trivial
  | pause p k ih => intro v; exact ih v

theorem handleHumanReview_status_good (now : String) :
    Susp.GoodTree (fun r => ∃ t, r.status = RVal.vstr t ∧ t ∈ decisionOptions)
      (_handle_human_review_dynamic now) := by
  simp only [_handle_human_review_dynamic, Susp.GoodTree]
  intro v hv
  obtain ⟨t, rfl, ht⟩ := hv (by simp [mkInterrupt, decisionOptions])
  by_cases hap : rvalEqStr (RVal.vstr t) "approve" = true
  · rw [if_pos hap]
    exact ⟨t, rfl, ht⟩
  · rw [if_neg hap]
    simp only [Susp.GoodTree]
    intro v2 _
    by_cases hfb : extractFeedback v2 ≠ ""
    · rw [if_pos hfb]
      simp only [Susp.GoodTree]
      intro v3 _
      exact ⟨t, rfl, ht⟩
    · rw [if_neg hfb]
      exact ⟨t, rfl, ht⟩

theorem decision_good {t : String} (ht : t ∈ decisionOptions) :
    GoodStatus (RVal.vstr t) := by
  fin_cases ht <;> simp [GoodStatus]

theorem llm_status_good {llm : Except Unit ReviewResult} (hllm : LlmStatusOK llm)
    (now : String) : GoodStatus (_handle_ai_review_dynamic llm now).status := by
  cases llm with
  | ok r =>
    obtain ⟨t, hst, ht⟩ := hllm r rfl
    simp only [_handle_ai_review_dynamic, hst]
    exact decision_good ht
  | error e => simp [_handle_ai_review_dynamic, _handle_auto_approve_dynamic, GoodStatus]

theorem poReview_status_goodTree (llm : Except Unit ReviewResult) (now : String)
    (s : SDLCState) (hllm : LlmStatusOK llm) :
    Susp.GoodTree (fun out => GoodStatus out.approval_status)
      (product_owner_review_dynamic llm now s) := by
  unfold product_owner_review_dynamic
  by_cases hus : s.user_stories.isEmpty = true
  · rw [if_pos hus]
    simp [Susp.GoodTree, GoodStatus]
  · rw [if_neg hus]
    simp only [Susp.GoodTree]
    intro v hv
    have hfin : ∀ r : ReviewResult, GoodStatus r.status →
        Susp.GoodTree (fun out => GoodStatus out.approval_status)
          (Susp.done (poFinish s v r now)) := by
      intro r hr
      simpa [Susp.GoodTree, poFinish] using hr
    by_cases h1 : rvalEqStr v "human" = true
    · rw [if_pos h1]
      apply Susp.goodTree_bind _ _ (handleHumanReview_status_good now)
      intro r hr
      obtain ⟨t, hst, ht⟩ := hr
      exact hfin r (hst ▸ decision_good ht)
    · rw [if_neg h1]
      by_cases h2 : rvalEqStr v "ai" = true
      · rw [if_pos h2]
        exact hfin _ (llm_status_good hllm now)
      · rw [if_neg h2]
        by_cases h3 : rvalEqStr v "auto" = true
        · rw [if_pos h3]
          exact hfin _ (by simp [_handle_auto_approve_dynamic, GoodStatus])
        · rw [if_neg h3]
          exact hfin _ (llm_status_good hllm now)

theorem poReview_leaves_finish (llm : Except Unit ReviewResult) (now : String)
    (s : SDLCState) (hus : s.user_stories.isEmpty = false) :
    Susp.Leaves (fun out => ∃ uc r, out = poFinish s uc r now)
      (product_owner_review_dynamic llm now s) := by
  unfold product_owner_review_dynamic
  rw [if_neg (by simp [hus])]
  simp only [Susp.Leaves]
  intro v
  by_cases h1 : rvalEqStr v "human" = true
  · rw [if_pos h1]
    apply Susp.leaves_bind _ _ (leaves_true _)
    intro r _
    exact ⟨v, r, rfl⟩
  · rw [if_neg h1]
    by_cases h2 : rvalEqStr v "ai" = true
    · rw [if_pos h2]; exact ⟨v, _, rfl⟩
    · rw [if_neg h2]
      by_cases h3 : rvalEqStr v "auto" = true
      · rw [if_pos h3]; exact ⟨v, _, rfl⟩
      · rw [if_neg h3]; exact ⟨v, _, rfl⟩

theorem poReview_cases (llm : Except Unit ReviewResult) (now : String)
    (s s2 : SDLCState) (rs : List RVal)
    (h : (product_owner_review_dynamic llm now s).runAll rs = some s2) :
    (s.user_stories.isEmpty = true ∧
      s2 = { s with approval_status := .vstr "approved",
                    current_stage := "product_owner_review_complete",
                    timestamp := now }) ∨
    (s.user_stories.isEmpty = false ∧ ∃ uc r, s2 = poFinish s uc r now) := by
  by_cases hus : s.user_stories.isEmpty = true
  · left
    refine ⟨hus, ?_⟩
    unfold product_owner_review_dynamic at h
    rw [if_pos hus, runAll_done] at h
    exact (Option.some.injEq _ _ ▸ h).symm
  · right
    refine ⟨by simpa using hus, ?_⟩
    exact Susp.leaves_runAll _ rs s2 (poReview_leaves_finish llm now s (by simpa using hus)) h

theorem handleHumanDesignReview_status_good (now : String) :
    Susp.GoodTree (fun r => ∃ t, r.status = RVal.vstr t ∧ t ∈ decisionOptions)
      (_handle_human_design_review_dynamic now) := by
  simp only [_handle_human_design_review_dynamic, Susp.GoodTree]
  intro v hv
  obtain ⟨t, rfl, ht⟩ := hv (by simp [mkInterrupt, decisionOptions])
  by_cases hap : rvalEqStr (RVal.vstr t) "approve" = true
  · rw [if_pos hap]
    exact ⟨t, rfl, ht⟩
  · rw [if_neg hap]
    simp only [Susp.GoodTree]
    intro v2 _
    by_cases hfb : extractFeedback v2 ≠ ""
    · rw [if_pos hfb]
      simp only [Susp.GoodTree]
      intro v3 _
      exact ⟨t, rfl, ht⟩
    · rw [if_neg hfb]
      exact ⟨t, rfl, ht⟩

theorem llmDesign_status_good {llm : Except Unit ReviewResult} (hllm : LlmStatusOK llm)
    (now : String) : GoodStatus (_handle_ai_design_review_dynamic llm now).status := by
  cases llm with
  | ok r =>
    obtain ⟨t, hst, ht⟩ := hllm r rfl
    simp only [_handle_ai_design_review_dynamic, hst]
    exact decision_good ht
  | error e => simp [_handle_ai_design_review_dynamic, _handle_auto_approve_design_dynamic, GoodStatus]

theorem designReview_status_goodTree (llm : Except Unit ReviewResult) (now : String)
    (s : SDLCState) (hllm : LlmStatusOK llm) :
    Susp.GoodTree (fun out => GoodStatus out.approval_status)
      (design_review_dynamic llm now s) := by
  unfold design_review_dynamic
  by_cases hus : s.design_docs.isEmpty = true
  · rw [if_pos hus]
    simp [Susp.GoodTree, GoodStatus]
  · rw [if_neg hus]
    simp only [Susp.GoodTree]
    intro v hv
    have hfin : ∀ r : ReviewResult, GoodStatus r.status →
        Susp.GoodTree (fun out => GoodStatus out.approval_status)
          (Susp.done (designFinish s v r now)) := by
      intro r hr
      simpa [Susp.GoodTree, designFinish] using hr
    by_cases h1 : rvalEqStr v "human" = true
    · rw [if_pos h1]
      apply Susp.goodTree_bind _ _ (handleHumanDesignReview_status_good now)
      intro r hr
      obtain ⟨t, hst, ht⟩ := hr
      exact hfin r (hst ▸ decision_good ht)
    · rw [if_neg h1]
      by_cases h2 : rvalEqStr v "ai" = true
      · rw [if_pos h2]
        exact hfin _ (llmDesign_status_good hllm now)
      · rw [if_neg h2]
        by_cases h3 : rvalEqStr v "auto" = true
        · rw [if_pos h3]
          exact hfin _ (by simp [_handle_auto_approve_design_dynamic, GoodStatus])
        · rw [if_neg h3]
          exact hfin _ (llmDesign_status_good hllm now)

theorem designReview_leaves_finish (llm : Except Unit ReviewResult) (now : String)
    (s : SDLCState) (hus : s.design_docs.isEmpty = false) :
    Susp.Leaves (fun out => ∃ uc r, out = designFinish s uc r now)
      (design_review_dynamic llm now s) := by
  unfold design_review_dynamic
  rw [if_neg (by simp [hus])]
  simp only [Susp.Leaves]
  intro v
  by_cases h1 : rvalEqStr v "human" = true
  · rw [if_pos h1]
    apply Susp.leaves_bind _ _ (leaves_true _)
    intro r _
    exact ⟨v, r, rfl⟩
  · rw [if_neg h1]
    by_cases h2 : rvalEqStr v "ai" = true
    · rw [if_pos h2]; exact ⟨v, _, rfl⟩
    · rw [if_neg h2]
      by_cases h3 : rvalEqStr v "auto" = true
      · rw [if_pos h3]; exact ⟨v, _, rfl⟩
      · rw [if_neg h3]; exact ⟨v, _, rfl⟩

theorem designReview_cases (llm : Except Unit ReviewResult) (now : String)
    (s s2 : SDLCState) (rs : List RVal)
    (h : (design_review_dynamic llm now s).runAll rs = some s2) :
    (s.design_docs.isEmpty = true ∧
      s2 = { s with approval_status := .vstr "approved",
                    current_stage := "design_review_complete",
                    timestamp := now }) ∨
    (s.design_docs.isEmpty = false ∧ ∃ uc r, s2 = designFinish s uc r now) := by
  by_cases hus : s.design_docs.isEmpty = true
  · left
    refine ⟨hus, ?_⟩
    unfold design_review_dynamic at h
    rw [if_pos hus, runAll_done] at h
    exact (Option.some.injEq _ _ ▸ h).symm
  · right
    refine ⟨by simpa using hus, ?_⟩
    exact Susp.leaves_runAll _ rs s2 (designReview_leaves_finish llm now s (by simpa using hus)) h

theorem handleHumanCodeReview_status_good (now : String) :
    Susp.GoodTree (fun r => ∃ t, r.status = RVal.vstr t ∧ t ∈ decisionOptions)
      (_handle_human_code_review_dynamic now) := by
  simp only [_handle_human_code_review_dynamic, Susp.GoodTree]
  intro v hv
  obtain ⟨t, rfl, ht⟩ := hv (by simp [mkInterrupt, decisionOptions])
  by_cases hap : rvalEqStr (RVal.vstr t) "approve" = true
  · rw [if_pos hap]
    exact ⟨t, rfl, ht⟩
  · rw [if_neg hap]
    simp only [Susp.GoodTree]
    intro v2 _
    by_cases hfb : extractFeedback v2 ≠ ""
    · rw [if_pos hfb]
      simp only [Susp.GoodTree]
      intro v3 _
      exact ⟨t, rfl, ht⟩
    · rw [if_neg hfb]
      exact ⟨t, rfl, ht⟩

theorem llmCode_status_good {llm : Except Unit ReviewResult} (hllm : LlmStatusOK llm)
    (now : String) : GoodStatus (_handle_ai_code_review_dynamic llm now).status := by
  cases llm with
  | ok r =>
    obtain ⟨t, hst, ht⟩ := hllm r rfl
    simp only [_handle_ai_code_review_dynamic, hst]
    exact decision_good ht
  | error e => simp [_handle_ai_code_review_dynamic, _handle_auto_approve_code_dynamic, GoodStatus]

theorem codeReview_status_goodTree (llm : Except Unit ReviewResult) (now : String)
    (s : SDLCState) (hllm : LlmStatusOK llm) :
    Susp.GoodTree (fun out => GoodStatus out.approval_status)
      (code_review_dynamic llm now s) := by
  unfold code_review_dynamic
  by_cases hus : s.code.isEmpty = true
  · rw [if_pos hus]
    simp [Susp.GoodTree, GoodStatus]
  · rw [if_neg hus]
    simp only [Susp.GoodTree]
    intro v hv
    have hfin : ∀ r : ReviewResult, GoodStatus r.status →
        Susp.GoodTree (fun out => GoodStatus out.approval_status)
          (Susp.done (codeFinish s v r now)) := by
      intro r hr
      simpa [Susp.GoodTree, codeFinish] using hr
    by_cases h1 : rvalEqStr v "human" = true
    · rw [if_pos h1]
      apply Susp.goodTree_bind _ _ (handleHumanCodeReview_status_good now)
      intro r hr
      obtain ⟨t, hst, ht⟩ := hr
      exact hfin r (hst ▸ decision_good ht)
    · rw [if_neg h1]
      by_cases h2 : rvalEqStr v "ai" = true
      · rw [if_pos h2]
        exact hfin _ (llmCode_status_good hllm now)
      · rw [if_neg h2]
        by_cases h3 : rvalEqStr v "auto" = true
        · rw [if_pos h3]
          exact hfin _ (by simp [_handle_auto_approve_code_dynamic, GoodStatus])
        · rw [if_neg h3]
          exact hfin _ (llmCode_status_good hllm now)

theorem codeReview_leaves_finish (llm : Except Unit ReviewResult) (now : String)
    (s : SDLCState) (hus : s.code.isEmpty = false) :
    Susp.Leaves (fun out => ∃ uc r, out = codeFinish s uc r now)
      (code_review_dynamic llm now s) := by
  unfold code_review_dynamic
  rw [if_neg (by simp [hus])]
  simp only [Susp.Leaves]
  intro v
  by_cases h1 : rvalEqStr v "human" = true
  · rw [if_pos h1]
    apply Susp.leaves_bind _ _ (leaves_true _)
    intro r _
    exact ⟨v, r, rfl⟩
  · rw [if_neg h1]
    by_cases h2 : rvalEqStr v "ai" = true
    · rw [if_pos h2]; exact ⟨v, _, rfl⟩
    · rw [if_neg h2]
      by_cases h3 : rvalEqStr v "auto" = true
      · rw [if_pos h3]; exact ⟨v, _, rfl⟩
      · rw [if_neg h3]; exact ⟨v, _, rfl⟩

theorem codeReview_cases (llm : Except Unit ReviewResult) (now : String)
    (s s2 : SDLCState) (rs : List RVal)
    (h : (code_review_dynamic llm now s).runAll rs = some s2) :
    (s.code.isEmpty = true ∧
      s2 = { s with approval_status := .vstr "approved",
                    current_stage := "code_review_complete",
                    timestamp := now }) ∨
    (s.code.isEmpty = false ∧ ∃ uc r, s2 = codeFinish s uc r now) := by
  by_cases hus : s.code.isEmpty = true
  · left
    refine ⟨hus, ?_⟩
    unfold code_review_dynamic at h
    rw [if_pos hus, runAll_done] at h
    exact (Option.some.injEq _ _ ▸ h).symm
  · right
    refine ⟨by simpa using hus, ?_⟩
    exact Susp.leaves_runAll _ rs s2 (codeReview_leaves_finish llm now s (by simpa using hus)) h

theorem handleHumanSecurityReview_status_good (now : String) :
    Susp.GoodTree (fun r => ∃ t, r.status = RVal.vstr t ∧ t ∈ decisionOptions)
      (_handle_human_security_review_dynamic now) := by
  simp only [_handle_human_security_review_dynamic, Susp.GoodTree]
  intro v hv
  obtain ⟨t, rfl, ht⟩ := hv (by simp [mkInterrupt, decisionOptions])
  by_cases hap : rvalEqStr (RVal.vstr t) "approve" = true
  · rw [if_pos hap]
    exact ⟨t, rfl, ht⟩
  · rw [if_neg hap]
    simp only [Susp.GoodTree]
    intro v2 _
    by_cases hfb : extractFeedback v2 ≠ ""
    · rw [if_pos hfb]
      simp only [Susp.GoodTree]
      intro v3 _
      exact ⟨t, rfl, ht⟩
    · rw [if_neg hfb]
      exact ⟨t, rfl, ht⟩

theorem llmSecurity_status_good {llm : Except Unit ReviewResult} (hllm : LlmStatusOK llm)
    (now : String) : GoodStatus (_handle_ai_security_review_dynamic llm now).status := by
  cases llm with
  | ok r =>
    obtain ⟨t, hst, ht⟩ := hllm r rfl
    simp only [_handle_ai_security_review_dynamic, hst]
    exact decision_good ht
  | error e => simp [_handle_ai_security_review_dynamic, _handle_auto_approve_security_dynamic, GoodStatus]

theorem securityReview_status_goodTree (llm : Except Unit ReviewResult) (now : String)
    (s : SDLCState) (hllm : LlmStatusOK llm) :
    Susp.GoodTree (fun out => GoodStatus out.approval_status)
      (security_review_dynamic llm now s) := by
  unfold security_review_dynamic
  by_cases hus : s.code.isEmpty = true
  · rw [if_pos hus]
    simp [Susp.GoodTree, GoodStatus]
  · rw [if_neg hus]
    simp only [Susp.GoodTree]
    intro v hv
    have hfin : ∀ r : ReviewResult, GoodStatus r.status →
        Susp.GoodTree (fun out => GoodStatus out.approval_status)
          (Susp.done (securityFinish s v r now)) := by
      intro r hr
      simpa [Susp.GoodTree, securityFinish] using hr
    by_cases h1 : rvalEqStr v "human" = true
    · rw [if_pos h1]
      apply Susp.goodTree_bind _ _ (handleHumanSecurityReview_status_good now)
      intro r hr
      obtain ⟨t, hst, ht⟩ := hr
      exact hfin r (hst ▸ decision_good ht)
    · rw [if_neg h1]
      by_cases h2 : rvalEqStr v "ai" = true
      · rw [if_pos h2]
        exact hfin _ (llmSecurity_status_good hllm now)
      · rw [if_neg h2]
        by_cases h3 : rvalEqStr v "auto" = true
        · rw [if_pos h3]
          exact hfin _ (by simp [_handle_auto_approve_security_dynamic, GoodStatus])
        · rw [if_neg h3]
          exact hfin _ (llmSecurity_status_good hllm now)

theorem securityReview_leaves_finish (llm : Except Unit ReviewResult) (now : String)
    (s : SDLCState) (hus : s.code.isEmpty = false) :
    Susp.Leaves (fun out => ∃ uc r, out = securityFinish s uc r now)
      (security_review_dynamic llm now s) := by
  unfold security_review_dynamic
  rw [if_neg (by simp [hus])]
  simp only [Susp.Leaves]
  intro v
  by_cases h1 : rvalEqStr v "human" = true
  · rw [if_pos h1]
    apply Susp.leaves_bind _ _ (leaves_true _)
    intro r _
    exact ⟨v, r, rfl⟩
  · rw [if_neg h1]
    by_cases h2 : rvalEqStr v "ai" = true
    · rw [if_pos h2]; exact ⟨v, _, rfl⟩
    · rw [if_neg h2]
      by_cases h3 : rvalEqStr v "auto" = true
      · rw [if_pos h3]; exact ⟨v, _, rfl⟩
      · rw [if_neg h3]; exact ⟨v, _, rfl⟩

theorem securityReview_cases (llm : Except Unit ReviewResult) (now : String)
    (s s2 : SDLCState) (rs : List RVal)
    (h : (security_review_dynamic llm now s).runAll rs = some s2) :
    (s.code.isEmpty = true ∧
      s2 = { s with approval_status := .vstr "approved",
                    current_stage := "security_review_complete",
                    timestamp := now }) ∨
    (s.code.isEmpty = false ∧ ∃ uc r, s2 = securityFinish s uc r now) := by
  by_cases hus : s.code.isEmpty = true
  · left
    refine ⟨hus, ?_⟩
    unfold security_review_dynamic at h
    rw [if_pos hus, runAll_done] at h
    exact (Option.some.injEq _ _ ▸ h).symm
  · right
    refine ⟨by simpa using hus, ?_⟩
    exact Susp.leaves_runAll _ rs s2 (securityReview_leaves_finish llm now s (by simpa using hus)) h

theorem handleHumanTestReview_status_good (now : String) (s : SDLCState) :
    Susp.GoodTree (fun r => ∃ t, r.status = RVal.vstr t ∧ t ∈ decisionOptions)
      (_handle_human_test_review_dynamic now s) := by
  simp only [_handle_human_test_review_dynamic, Susp.GoodTree]
  intro v hv
  obtain ⟨t, rfl, ht⟩ := hv (by simp [mkInterrupt, decisionOptions])
  by_cases hap : rvalEqStr (RVal.vstr t) "approve" = true
  · rw [if_pos hap]
    exact ⟨t, rfl, ht⟩
  · rw [if_neg hap]
    simp only [Susp.GoodTree]
    intro v2 _
    by_cases hfb : extractFeedback v2 ≠ ""
    · rw [if_pos hfb]
      simp only [Susp.GoodTree]
      intro v3 _
      by_cases hsg : (pyTruthy v3 && ((pyStr v3).trim ≠ "" : Bool)) = true
      · rw [if_pos hsg]
        exact ⟨t, rfl, ht⟩
      · rw [if_neg hsg]
        exact ⟨t, rfl, ht⟩
    · rw [if_neg hfb]
      exact ⟨t, rfl, ht⟩

theorem llmTest_status_good {llm : Except Unit ReviewResult} (hllm : LlmStatusOK llm)
    (now : String) : GoodStatus (_handle_ai_test_review_dynamic llm now).status := by
  cases llm with
  | ok r =>
    obtain ⟨t, hst, ht⟩ := hllm r rfl
    simp only [_handle_ai_test_review_dynamic, hst]
    exact decision_good ht
  | error e => simp [_handle_ai_test_review_dynamic, _handle_auto_approve_test_dynamic, GoodStatus]

theorem testReview_status_goodTree (llm : Except Unit ReviewResult) (now : String)
    (s : SDLCState) (hllm : LlmStatusOK llm) :
    Susp.GoodTree (fun out => GoodStatus out.approval_status)
      (test_cases_review_dynamic llm now s) := by
  unfold test_cases_review_dynamic
  by_cases hus : s.test_cases.isEmpty = true
  · rw [if_pos hus]
    simp [Susp.GoodTree, GoodStatus]
  · rw [if_neg hus]
    simp only [Susp.GoodTree]
    intro v hv
    have hfin : ∀ r : ReviewResult, GoodStatus r.status →
        Susp.GoodTree (fun out => GoodStatus out.approval_status)
          (Susp.done (testFinish s v r now)) := by
      intro r hr
      simpa [Susp.GoodTree, testFinish] using hr
    by_cases h1 : rvalEqStr v "human" = true
    · rw [if_pos h1]
      apply Susp.goodTree_bind _ _ (handleHumanTestReview_status_good now s)
      intro r hr
      obtain ⟨t, hst, ht⟩ := hr
      exact hfin r (hst ▸ decision_good ht)
    · rw [if_neg h1]
      by_cases h2 : rvalEqStr v "ai" = true
      · rw [if_pos h2]
        exact hfin _ (llmTest_status_good hllm now)
      · rw [if_neg h2]
        by_cases h3 : rvalEqStr v "auto" = true
        · rw [if_pos h3]
          exact hfin _ (by simp [_handle_auto_approve_test_dynamic, GoodStatus])
        · rw [if_neg h3]
          exact hfin _ (llmTest_status_good hllm now)

theorem testReview_leaves_finish (llm : Except Unit ReviewResult) (now : String)
    (s : SDLCState) (hus : s.test_cases.isEmpty = false) :
    Susp.Leaves (fun out => ∃ uc r, out = testFinish s uc r now)
      (test_cases_review_dynamic llm now s) := by
  unfold test_cases_review_dynamic
  rw [if_neg (by simp [hus])]
  simp only [Susp.Leaves]
  intro v
  by_cases h1 : rvalEqStr v "human" = true
  · rw [if_pos h1]
    apply Susp.leaves_bind _ _ (leaves_true _)
    intro r _
    exact ⟨v, r, rfl⟩
  · rw [if_neg h1]
    by_cases h2 : rvalEqStr v "ai" = true
    · rw [if_pos h2]; exact ⟨v, _, rfl⟩
    · rw [if_neg h2]
      by_cases h3 : rvalEqStr v "auto" = true
      · rw [if_pos h3]; exact ⟨v, _, rfl⟩
      · rw [if_neg h3]; exact ⟨v, _, rfl⟩

theorem testReview_cases (llm : Except Unit ReviewResult) (now : String)
    (s s2 : SDLCState) (rs : List RVal)
    (h : (test_cases_review_dynamic llm now s).runAll rs = some s2) :
    (s.test_cases.isEmpty = true ∧
      s2 = { s with approval_status := .vstr "approved",
                    current_stage := "test_cases_review_complete",
                    timestamp := now }) ∨
    (s.test_cases.isEmpty = false ∧ ∃ uc r, s2 = testFinish s uc r now) := by
  by_cases hus : s.test_cases.isEmpty = true
  · left
    refine ⟨hus, ?_⟩
    unfold test_cases_review_dynamic at h
    rw [if_pos hus, runAll_done] at h
    exact (Option.some.injEq _ _ ▸ h).symm
  · right
    refine ⟨by simpa using hus, ?_⟩
    exact Susp.leaves_runAll _ rs s2 (testReview_leaves_finish llm now s (by simpa using hus)) h

theorem applyStage_history_extends (st : Stage) (s s2 : SDLCState)
    (h : applyStage st s = some s2) : s.review_history <+: s2.review_history := by
  cases st with
  | requirementsNode llm now =>
    simp only [applyStage, Option.some.injEq] at h
    subst h; exact List.prefix_refl _
  | genStories stories now =>
    simp only [applyStage, Option.some.injEq] at h
    subst h; exact List.prefix_refl _
  | poReview llm now rs =>
    rcases poReview_cases llm now s s2 rs (by simpa [applyStage] using h) with
      ⟨_, rfl⟩ | ⟨_, uc, r, rfl⟩
    · exact List.prefix_refl _
    · exact List.prefix_append _ _
  | reviseStories revised now =>
    simp only [applyStage, Option.some.injEq] at h
    subst h; exact List.prefix_refl _
  | createDesign docs now =>
    simp only [applyStage, Option.some.injEq] at h
    subst h; unfold create_design_documents; split_ifs <;> exact List.prefix_refl _
  | designReview llm now rs =>
    rcases designReview_cases llm now s s2 rs (by simpa [applyStage] using h) with
      ⟨_, rfl⟩ | ⟨_, uc, r, rfl⟩
    · exact List.prefix_refl _
    · exact List.prefix_append _ _
  | reviseDesign revised now =>
    simp only [applyStage, Option.some.injEq] at h
    subst h; exact List.prefix_refl _
  | genCode code now =>
    simp only [applyStage, Option.some.injEq] at h
    subst h; unfold generate_code; split_ifs <;> exact List.prefix_refl _
  | codeReview llm now rs =>
    rcases codeReview_cases llm now s s2 rs (by simpa [applyStage] using h) with
      ⟨_, rfl⟩ | ⟨_, uc, r, rfl⟩
    · exact List.prefix_refl _
    · exact List.prefix_append _ _
  | fixCode improved now =>
    simp only [applyStage, Option.some.injEq] at h
    subst h; unfold fix_code_after_review_dynamic; split_ifs <;> exact List.prefix_refl _
  | securityReview llm now rs =>
    rcases securityReview_cases llm now s s2 rs (by simpa [applyStage] using h) with
      ⟨_, rfl⟩ | ⟨_, uc, r, rfl⟩
    · exact List.prefix_refl _
    · exact List.prefix_append _ _
  | fixCodeSecurity improved now =>
    simp only [applyStage, Option.some.injEq] at h
    subst h; unfold fix_code_after_security_dynamic; split_ifs <;> exact List.prefix_refl _
  | genTests tests now =>
    simp only [applyStage, Option.some.injEq] at h
    subst h; unfold generate_test_cases; split_ifs <;> exact List.prefix_refl _
  | testReview llm now rs =>
    rcases testReview_cases llm now s s2 rs (by simpa [applyStage] using h) with
      ⟨_, rfl⟩ | ⟨_, uc, r, rfl⟩
    · exact List.prefix_refl _
    · exact List.prefix_append _ _
  | reviseTests improved now =>
    simp only [applyStage, Option.some.injEq] at h
    subst h; unfold revise_test_cases_dynamic; split_ifs <;> exact List.prefix_refl _
  | deploy now =>
    simp only [applyStage, Option.some.injEq] at h
    subst h; exact List.prefix_refl _

theorem runStages_history_extends (stages : List Stage) (s s2 : SDLCState)
    (h : runStages stages s = some s2) : s.review_history <+: s2.review_history := by
  induction stages generalizing s with
  | nil => simp only [runStages, Option.some.injEq] at h; subst h; exact List.prefix_refl _
  | cons st rest ih =>
    simp only [runStages] at h
    cases happ : applyStage st s with
    | none => rw [happ] at h; exact absurd h (by simp)
    | some s1 =>
      rw [happ] at h
      exact (applyStage_history_extends st s s1 happ).trans (ih s1 h)

theorem applyStage_iter_mono (st : Stage) (s s2 : SDLCState)
    (hnr : ∀ llm now, st ≠ Stage.requirementsNode llm now)
    (h : applyStage st s = some s2) : s.iteration_count ≤ s2.iteration_count := by
  cases st with
  | requirementsNode llm now => exact absurd rfl (hnr llm now)
  | genStories stories now =>
    simp only [applyStage, Option.some.injEq] at h; subst h; exact le_refl _
  | poReview llm now rs =>
    rcases poReview_cases llm now s s2 rs (by simpa [applyStage] using h) with
      ⟨_, rfl⟩ | ⟨_, uc, r, rfl⟩ <;> exact le_refl _
  | reviseStories revised now =>
    simp only [applyStage, Option.some.injEq] at h; subst h; exact Nat.le_succ _
  | createDesign docs now =>
    simp only [applyStage, Option.some.injEq] at h
    subst h; unfold create_design_documents; split_ifs <;> exact le_refl _
  | designReview llm now rs =>
    rcases designReview_cases llm now s s2 rs (by simpa [applyStage] using h) with
      ⟨_, rfl⟩ | ⟨_, uc, r, rfl⟩ <;> exact le_refl _
  | reviseDesign revised now =>
    simp only [applyStage, Option.some.injEq] at h; subst h; exact Nat.le_succ _
  | genCode code now =>
    simp only [applyStage, Option.some.injEq] at h
    subst h; unfold generate_code; split_ifs <;> exact le_refl _
  | codeReview llm now rs =>
    rcases codeReview_cases llm now s s2 rs (by simpa [applyStage] using h) with
      ⟨_, rfl⟩ | ⟨_, uc, r, rfl⟩ <;> exact le_refl _
  | fixCode improved now =>
    simp only [applyStage, Option.some.injEq] at h
    subst h; unfold fix_code_after_review_dynamic
    split_ifs <;> first | exact le_refl _ | exact Nat.le_succ _
  | securityReview llm now rs =>
    rcases securityReview_cases llm now s s2 rs (by simpa [applyStage] using h) with
      ⟨_, rfl⟩ | ⟨_, uc, r, rfl⟩ <;> exact le_refl _
  | fixCodeSecurity improved now =>
    simp only [applyStage, Option.some.injEq] at h
    subst h; unfold fix_code_after_security_dynamic
    split_ifs <;> first | exact le_refl _ | exact Nat.le_succ _
  | genTests tests now =>
    simp only [applyStage, Option.some.injEq] at h
    subst h; unfold generate_test_cases; split_ifs <;> exact le_refl _
  | testReview llm now rs =>
    rcases testReview_cases llm now s s2 rs (by simpa [applyStage] using h) with
      ⟨_, rfl⟩ | ⟨_, uc, r, rfl⟩ <;> exact le_refl _
  | reviseTests improved now =>
    simp only [applyStage, Option.some.injEq] at h
    subst h; unfold revise_test_cases_dynamic
    split_ifs <;> first | exact le_refl _ | exact Nat.le_succ _
  | deploy now =>
    simp only [applyStage, Option.some.injEq] at h; subst h; exact le_refl _

theorem runStages_iter_mono (stages : List Stage) (s s2 : SDLCState)
    (hnr : ∀ st ∈ stages, ∀ llm now, st ≠ Stage.requirementsNode llm now)
    (h : runStages stages s = some s2) : s.iteration_count ≤ s2.iteration_count := by
  induction stages generalizing s with
  | nil => simp only [runStages, Option.some.injEq] at h; subst h; exact le_refl _
  | cons st rest ih =>
    simp only [runStages] at h
    cases happ : applyStage st s with
    | none => rw [happ] at h; exact absurd h (by simp)
    | some s1 =>
      rw [happ] at h
      exact (applyStage_iter_mono st s s1 (hnr st (by simp)) happ).trans
        (ih s1 (fun t ht => hnr t (List.mem_cons_of_mem _ ht)) h)

theorem applyStage_status_good (st : Stage) (s s2 : SDLCState)
    (hv : StageValid st s) (h : applyStage st s = some s2)
    (hg : GoodStatus s.approval_status) : GoodStatus s2.approval_status := by
  cases st with
  | requirementsNode llm now =>
    simp only [applyStage, Option.some.injEq] at h; subst h
    simp [ui_user_inputs_requirements, GoodStatus]
  | genStories stories now =>
    simp only [applyStage, Option.some.injEq] at h; subst h; exact hg
  | poReview llm now rs =>
    exact Susp.goodTree_runAll _ rs s2 (poReview_status_goodTree llm now s hv.1) hv.2
      (by simpa [applyStage] using h)
  | reviseStories revised now =>
    simp only [applyStage, Option.some.injEq] at h; subst h
    simp [revise_user_stories_dynamic, GoodStatus]
  | createDesign docs now =>
    simp only [applyStage, Option.some.injEq] at h; subst h
    unfold create_design_documents; split_ifs <;> exact hg
  | designReview llm now rs =>
    exact Susp.goodTree_runAll _ rs s2 (designReview_status_goodTree llm now s hv.1) hv.2
      (by simpa [applyStage] using h)
  | reviseDesign revised now =>
    simp only [applyStage, Option.some.injEq] at h; subst h
    simp [revise_design_documents_dynamic, GoodStatus]
  | genCode code now =>
    simp only [applyStage, Option.some.injEq] at h; subst h
    unfold generate_code; split_ifs <;> exact hg
  | codeReview llm now rs =>
    exact Susp.goodTree_runAll _ rs s2 (codeReview_status_goodTree llm now s hv.1) hv.2
      (by simpa [applyStage] using h)
  | fixCode improved now =>
    simp only [applyStage, Option.some.injEq] at h; subst h
    unfold fix_code_after_review_dynamic
    split_ifs <;> first | exact hg | simp [GoodStatus]
  | securityReview llm now rs =>
    exact Susp.goodTree_runAll _ rs s2 (securityReview_status_goodTree llm now s hv.1) hv.2
      (by simpa [applyStage] using h)
  | fixCodeSecurity improved now =>
    simp only [applyStage, Option.some.injEq] at h; subst h
    unfold fix_code_after_security_dynamic
    split_ifs <;> first | exact hg | simp [GoodStatus]
  | genTests tests now =>
    simp only [applyStage, Option.some.injEq] at h; subst h
    unfold generate_test_cases; split_ifs <;> exact hg
  | testReview llm now rs =>
    exact Susp.goodTree_runAll _ rs s2 (testReview_status_goodTree llm now s hv.1) hv.2
      (by simpa [applyStage] using h)
  | reviseTests improved now =>
    simp only [applyStage, Option.some.injEq] at h; subst h
    unfold revise_test_cases_dynamic
    split_ifs <;> first | exact hg | simp [GoodStatus]
  | deploy now =>
    simp only [applyStage, Option.some.injEq] at h; subst h; exact hg

theorem runStages_status_good (stages : List Stage) (s s2 : SDLCState)
    (hav : AllValid stages s) (h : runStages stages s = some s2)
    (hg : GoodStatus s.approval_status) : GoodStatus s2.approval_status := by
  induction stages generalizing s with
  | nil => simp only [runStages, Option.some.injEq] at h; subst h; exact hg
  | cons st rest ih =>
    simp only [runStages] at h
    cases happ : applyStage st s with
    | none => rw [happ] at h; exact absurd h (by simp)
    | some s1 =>
      rw [happ] at h
      exact ih s1 (hav.2 s1 happ) h (applyStage_status_good st s s1 hav.1 happ hg)

/-- Claim C1: every gated review router advances to the next phase exactly
when the approval status equals "approve" or the iteration count has reached
MAX_ITERATIONS, and otherwise returns the revision node of that phase. -/
theorem C1_router_three_way (settings : Settings) (s : SDLCState) :
    (route_after_po_review_dynamic settings s =
      if rvalEqStr s.approval_status "approve" = true ∨
         settings.MAX_ITERATIONS ≤ s.iteration_count
      then "create_design_documents" else "revise_user_stories") ∧
    (route_after_design_review_dynamic settings s =
      if rvalEqStr s.approval_status "approve" = true ∨
         settings.MAX_ITERATIONS ≤ s.iteration_count
      then "generate_code" else "revise_design_documents") ∧
    (route_after_code_review_dynamic settings s =
      if rvalEqStr s.approval_status "approve" = true ∨
         settings.MAX_ITERATIONS ≤ s.iteration_count
      then "security_review" else "fix_code_after_review") ∧
    (route_after_security_review_dynamic settings s =
      if rvalEqStr s.approval_status "approve" = true ∨
         settings.MAX_ITERATIONS ≤ s.iteration_count
      then "generate_test_cases" else "fix_code_after_security") ∧
    (route_after_test_review_dynamic settings s =
      if rvalEqStr s.approval_status "approve" = true ∨
         settings.MAX_ITERATIONS ≤ s.iteration_count
      then "deployment" else "revise_test_cases") := by
  unfold route_after_po_review_dynamic route_after_design_review_dynamic
    route_after_code_review_dynamic route_after_security_review_dynamic
    route_after_test_review_dynamic
  by_cases h1 : rvalEqStr s.approval_status "approve" = true <;>
    by_cases h2 : settings.MAX_ITERATIONS ≤ s.iteration_count <;>
    simp [h1, h2]

/-- Claim C2: suspend/resume fidelity.  Driving a suspendable stage through
start/resume cycles, one resume value per cycle, finishes with a state
exactly when the direct call with every suspension call-site replaced inline
by its positional resume value produces that state; in particular this holds
for the product-owner review stage with its up-to-four sequential pause
points. -/
theorem C2_suspend_resume_fidelity :
    (∀ (c : Susp SDLCState) (vs : List RVal) (out : SDLCState),
        Susp.drive c vs = Susp.done out ↔ c.runAll vs = some out) ∧
    (∀ (llm : Except Unit ReviewResult) (now : String) (s : SDLCState)
        (vs : List RVal) (out : SDLCState),
        Susp.drive (product_owner_review_dynamic llm now s) vs = Susp.done out ↔
          (product_owner_review_dynamic llm now s).runAll vs = some out) :=
  ⟨fun c vs out => Susp.drive_eq_done_iff_runAll c vs out,
   fun _llm _now _s vs out => Susp.drive_eq_done_iff_runAll _ vs out⟩

/-- Claim C3 counterexample: the requirements-capture stage stores the
approval status "pending", which is not one of the four documented enum
values. -/
theorem C3_counterexample :
    (ui_user_inputs_requirements (Except.ok "enhanced requirements") "t1"
        baseState).approval_status = RVal.vstr "pending" ∧
    RVal.vstr "pending" ∉
      ([.vstr "", .vstr "approve", .vstr "request_changes", .vstr "reject"] :
        List RVal) :=
  ⟨rfl, by decide⟩

/-- Claim C3 (amended): along hygienic executions (resume values drawn from
the advertised option keys, delegated review decisions drawn from the
decision options), every stage preserves membership of `approval_status` in
the six-value set that also contains "pending" (set by requirements capture)
and "approved" (set by the empty-artifact auto-approval paths). -/
theorem C3_amended_status_enum :
    (∀ (st : Stage) (s s2 : SDLCState), StageValid st s → applyStage st s = some s2 →
        GoodStatus s.approval_status → GoodStatus s2.approval_status) ∧
    (∀ (stages : List Stage) (s s2 : SDLCState), AllValid stages s →
        runStages stages s = some s2 →
        GoodStatus s.approval_status → GoodStatus s2.approval_status) :=
  ⟨applyStage_status_good, runStages_status_good⟩

theorem C3_amended_witness :
    GoodStatus (ui_user_inputs_requirements (Except.ok "enhanced") "t1"
      baseState).approval_status :=
  C3_amended_status_enum.1 (.requirementsNode (.ok "enhanced") "t1") baseState
    (ui_user_inputs_requirements (.ok "enhanced") "t1" baseState)
    trivial rfl (by unfold GoodStatus; decide)

/-- Claim C4 counterexample: with no user stories the product-owner review
stage completes (current stage marks the review complete) without appending
any ReviewRecord, so the history length stays 0 for a completed review-stage
execution. -/
theorem C4_counterexample :
    noStoriesState.review_history.length = 0 ∧
    ((product_owner_review_dynamic (Except.error ()) "t1" noStoriesState).runAll []).map
        (fun out => (out.current_stage, out.review_history.length)) =
      some ("product_owner_review_complete", 0) :=
  ⟨rfl, rfl⟩

/-- Claim C4 (amended): each gated review stage appends exactly one
ReviewRecord when it has artifacts to review and appends none on the
empty-artifact auto-approval path; across any run the review history is
append-only (the input history is always a prefix of the output history, so
entries are never mutated or removed and the length never decreases). -/
theorem C4_amended_history :
    (∀ llm now rs s s2, applyStage (.poReview llm now rs) s = some s2 →
      (s.user_stories.isEmpty = true ∧ s2.review_history = s.review_history) ∨
      (s.user_stories.isEmpty = false ∧
        ∃ uc r, s2.review_history = s.review_history ++ [poReviewRecord s uc r])) ∧
    (∀ llm now rs s s2, applyStage (.designReview llm now rs) s = some s2 →
      (s.design_docs.isEmpty = true ∧ s2.review_history = s.review_history) ∨
      (s.design_docs.isEmpty = false ∧
        ∃ uc r, s2.review_history = s.review_history ++ [designReviewRecord s uc r])) ∧
    (∀ llm now rs s s2, applyStage (.codeReview llm now rs) s = some s2 →
      (s.code.isEmpty = true ∧ s2.review_history = s.review_history) ∨
      (s.code.isEmpty = false ∧
        ∃ uc r, s2.review_history = s.review_history ++ [codeReviewRecord s uc r])) ∧
    (∀ llm now rs s s2, applyStage (.securityReview llm now rs) s = some s2 →
      (s.code.isEmpty = true ∧ s2.review_history = s.review_history) ∨
      (s.code.isEmpty = false ∧
        ∃ uc r, s2.review_history = s.review_history ++ [securityReviewRecord s uc r])) ∧
    (∀ llm now rs s s2, applyStage (.testReview llm now rs) s = some s2 →
      (s.test_cases.isEmpty = true ∧ s2.review_history = s.review_history) ∨
      (s.test_cases.isEmpty = false ∧
        ∃ uc r, s2.review_history = s.review_history ++ [testReviewRecord s uc r])) ∧
    (∀ stages s s2, runStages stages s = some s2 →
      s.review_history <+: s2.review_history) := by
  refine ⟨?_, ?_, ?_, ?_, ?_, fun stages s s2 h => runStages_history_extends stages s s2 h⟩
  · intro llm now rs s s2 h
    rcases poReview_cases llm now s s2 rs (by simpa [applyStage] using h) with
      ⟨he, rfl⟩ | ⟨he, uc, r, rfl⟩
    · exact Or.inl ⟨he, rfl⟩
    · exact Or.inr ⟨he, uc, r, rfl⟩
  · intro llm now rs s s2 h
    rcases designReview_cases llm now s s2 rs (by simpa [applyStage] using h) with
      ⟨he, rfl⟩ | ⟨he, uc, r, rfl⟩
    · exact Or.inl ⟨he, rfl⟩
    · exact Or.inr ⟨he, uc, r, rfl⟩
  · intro llm now rs s s2 h
    rcases codeReview_cases llm now s s2 rs (by simpa [applyStage] using h) with
      ⟨he, rfl⟩ | ⟨he, uc, r, rfl⟩
    · exact Or.inl ⟨he, rfl⟩
    · exact Or.inr ⟨he, uc, r, rfl⟩
  · intro llm now rs s s2 h
    rcases securityReview_cases llm now s s2 rs (by simpa [applyStage] using h) with
      ⟨he, rfl⟩ | ⟨he, uc, r, rfl⟩
    · exact Or.inl ⟨he, rfl⟩
    · exact Or.inr ⟨he, uc, r, rfl⟩
  · intro llm now rs s s2 h
    rcases testReview_cases llm now s s2 rs (by simpa [applyStage] using h) with
      ⟨he, rfl⟩ | ⟨he, uc, r, rfl⟩
    · exact Or.inl ⟨he, rfl⟩
    · exact Or.inr ⟨he, uc, r, rfl⟩

theorem C4_amended_witness :
    (baseState.user_stories.isEmpty = true ∧
      (poFinish baseState (RVal.vstr "auto") (_handle_auto_approve_dynamic "t1")
        "t1").review_history = baseState.review_history) ∨
    (baseState.user_stories.isEmpty = false ∧
      ∃ uc r, (poFinish baseState (RVal.vstr "auto") (_handle_auto_approve_dynamic "t1")
        "t1").review_history = baseState.review_history ++ [poReviewRecord baseState uc r]) :=
  C4_amended_history.1 (Except.error ()) "t1" [RVal.vstr "auto"] baseState
    (poFinish baseState (RVal.vstr "auto") (_handle_auto_approve_dynamic "t1") "t1") rfl

/-- Claim C5 counterexample: `fix_code_after_security_dynamic` executed with
no code files returns the input iteration count unchanged (0, not 0 + 1),
and the requirements-capture stage resets a positive iteration count back to
0, so iteration counts are not monotone across all stages. -/
theorem C5_counterexample :
    (fix_code_after_security_dynamic [("main.py", "fixed")] "t1" noCodeState).iteration_count
        = noCodeState.iteration_count ∧
    noCodeState.iteration_count = 0 ∧
    (fix_code_after_security_dynamic [("main.py", "fixed")] "t1" noCodeState).iteration_count
        ≠ noCodeState.iteration_count + 1 ∧
    ({ baseState with iteration_count := 5 } : SDLCState).iteration_count = 5 ∧
    (ui_user_inputs_requirements (Except.ok "enhanced") "t2"
        { baseState with iteration_count := 5 }).iteration_count = 0 :=
  ⟨rfl, rfl, by decide, rfl, rfl⟩

/-- Claim C5 (amended): the story and design revision stages increment the
iteration count by exactly 1; the three guarded revision stages increment by
exactly 1 only on their successful path and leave the count unchanged on
their missing-artifact / missing-feedback skip paths; the requirements stage
resets the count to 0; every other stage never decreases it, and any run
avoiding the requirements stage is monotone. -/
theorem C5_amended_iteration :
    (∀ revised now s, (revise_user_stories_dynamic revised now s).iteration_count =
        s.iteration_count + 1) ∧
    (∀ revised now s, (revise_design_documents_dynamic revised now s).iteration_count =
        s.iteration_count + 1) ∧
    (∀ improved now s, (fix_code_after_review_dynamic improved now s).iteration_count =
        if s.code.isEmpty then s.iteration_count
        else if s.review_feedback.isNone then s.iteration_count
        else s.iteration_count + 1) ∧
    (∀ improved now s, (fix_code_after_security_dynamic improved now s).iteration_count =
        if s.code.isEmpty then s.iteration_count
        else if s.review_feedback.isNone then s.iteration_count
        else s.iteration_count + 1) ∧
    (∀ improved now s, (revise_test_cases_dynamic improved now s).iteration_count =
        if s.test_cases.isEmpty then s.iteration_count
        else if s.review_feedback.isNone then s.iteration_count
        else s.iteration_count + 1) ∧
    (∀ llm now s, (ui_user_inputs_requirements llm now s).iteration_count = 0) ∧
    (∀ st s s2, (∀ llm now, st ≠ Stage.requirementsNode llm now) →
        applyStage st s = some s2 → s.iteration_count ≤ s2.iteration_count) ∧
    (∀ stages s s2,
        (∀ st ∈ stages, ∀ llm now, st ≠ Stage.requirementsNode llm now) →
        runStages stages s = some s2 → s.iteration_count ≤ s2.iteration_count) := by
  refine ⟨fun revised now s => rfl, fun revised now s => rfl, ?_, ?_, ?_,
    fun llm now s => rfl, applyStage_iter_mono, runStages_iter_mono⟩
  · intro improved now s
    unfold fix_code_after_review_dynamic
    split_ifs <;> rfl
  · intro improved now s
    unfold fix_code_after_security_dynamic
    split_ifs <;> rfl
  · intro improved now s
    unfold revise_test_cases_dynamic
    split_ifs <;> rfl

theorem C5_amended_witness :
    baseState.iteration_count ≤ (deployment "t1" baseState).iteration_count :=
  C5_amended_iteration.2.2.2.2.2.2.1 (.deploy "t1") baseState
    (deployment "t1" baseState)
    (fun _llm _now hcontra => Stage.noConfusion hcontra) rfl

/-- Claim C6 counterexample: `revise_test_cases_dynamic` executed with no
test cases completes while leaving `approval_status` at "request_changes"
instead of resetting it to the empty string. -/
theorem C6_counterexample :
    (revise_test_cases_dynamic [("test_main.py", "x")] "t1" noTestsState).approval_status
        = RVal.vstr "request_changes" ∧
    RVal.vstr "request_changes" ≠ RVal.vstr "" :=
  ⟨rfl, by decide⟩

/-- Claim C6 (amended): the story and design revision stages always reset
`approval_status` to the empty string on completion; the three guarded
revision stages reset it only on their successful path and leave it
unchanged on their missing-artifact / missing-feedback skip paths. -/
theorem C6_amended_approval_reset :
    (∀ revised now s, (revise_user_stories_dynamic revised now s).approval_status =
        RVal.vstr "") ∧
    (∀ revised now s, (revise_design_documents_dynamic revised now s).approval_status =
        RVal.vstr "") ∧
    (∀ improved now s, (fix_code_after_review_dynamic improved now s).approval_status =
        if s.code.isEmpty then s.approval_status
        else if s.review_feedback.isNone then s.approval_status
        else RVal.vstr "") ∧
    (∀ improved now s, (fix_code_after_security_dynamic improved now s).approval_status =
        if s.code.isEmpty then s.approval_status
        else if s.review_feedback.isNone then s.approval_status
        else RVal.vstr "") ∧
    (∀ improved now s, (revise_test_cases_dynamic improved now s).approval_status =
        if s.test_cases.isEmpty then s.approval_status
        else if s.review_feedback.isNone then s.approval_status
        else RVal.vstr "") := by
  refine ⟨fun revised now s => rfl, fun revised now s => rfl, ?_, ?_, ?_⟩
  · intro improved now s
    unfold fix_code_after_review_dynamic
    split_ifs <;> rfl
  · intro improved now s
    unfold fix_code_after_security_dynamic
    split_ifs <;> rfl
  · intro improved now s
    unfold revise_test_cases_dynamic
    split_ifs <;> rfl

theorem heapGet_set_ne (h : ListHeap) (addr j : Nat) (l : List ReviewRecord)
    (hne : j ≠ addr) : heapGet (heapSet h addr l) j = heapGet h j := by
  unfold heapGet heapSet
  simp [List.getD, List.getElem?_set_ne (Ne.symm hne)]

theorem poReviewRef_leaves_finish (llm : Except Unit ReviewResult) (now : String)
    (h : ListHeap) (addr : Nat) (s : SDLCState)
    (hus : s.user_stories.isEmpty = false) :
    Susp.Leaves (fun q => ∃ uc r, q = poFinishRef h addr s uc r now)
      (product_owner_review_dynamic_ref llm now h addr s) := by
  unfold product_owner_review_dynamic_ref
  rw [if_neg (by simp [hus])]
  simp only [Susp.Leaves]
  intro v
  by_cases h1 : rvalEqStr v "human" = true
  · rw [if_pos h1]
    apply Susp.leaves_bind _ _ (leaves_true _)
    intro r _
    exact ⟨v, r, rfl⟩
  · rw [if_neg h1]
    by_cases h2 : rvalEqStr v "ai" = true
    · rw [if_pos h2]; exact ⟨v, _, rfl⟩
    · rw [if_neg h2]
      by_cases h3 : rvalEqStr v "auto" = true
      · rw [if_pos h3]; exact ⟨v, _, rfl⟩
      · rw [if_neg h3]; exact ⟨v, _, rfl⟩

/-- Claim C7 counterexample: running the product-owner review (auto choice)
over the aliasing model appends to the very list object the input state
references under `review_history`: afterwards the heap cell the input state
points at is no longer the empty list it held before the stage ran. -/
theorem C7_counterexample :
    ((product_owner_review_dynamic_ref (Except.error ()) "t1" [[]] 0 baseState).runAll
        [RVal.vstr "auto"]).map (fun p => heapGet p.1 0) ≠ some (heapGet [[]] 0) := by
  have hev : ((product_owner_review_dynamic_ref (Except.error ()) "t1" [[]] 0
      baseState).runAll [RVal.vstr "auto"]).map (fun p => heapGet p.1 0) =
      some [poReviewRecord baseState (RVal.vstr "auto")
        (_handle_auto_approve_dynamic "t1")] := rfl
  rw [hev]
  simp [heapGet]

/-- Claim C7 (amended): the only in-place effect of the product-owner review
stage on its input is the single append to the review-history list object
the input state references; every other heap cell is untouched, and on the
empty-stories path the heap is untouched entirely. -/
theorem C7_amended_aliasing (llm : Except Unit ReviewResult) (now : String)
    (h : ListHeap) (addr : Nat) (s : SDLCState) (rs : List RVal)
    (p : ListHeap × SDLCState)
    (hr : (product_owner_review_dynamic_ref llm now h addr s).runAll rs = some p) :
    ((s.user_stories.isEmpty = true ∧ p.1 = h ∧
        p.2 = { s with approval_status := .vstr "approved",
                       current_stage := "product_owner_review_complete",
                       timestamp := now }) ∨
      (s.user_stories.isEmpty = false ∧
        ∃ uc r, p = poFinishRef h addr s uc r now)) ∧
    (∀ j, j ≠ addr → heapGet p.1 j = heapGet h j) := by
  by_cases hus : s.user_stories.isEmpty = true
  · unfold product_owner_review_dynamic_ref at hr
    rw [if_pos hus, runAll_done] at hr
    obtain rfl := (Option.some.injEq _ _ ▸ hr).symm
    exact ⟨Or.inl ⟨hus, rfl, rfl⟩, fun j _ => rfl⟩
  · have hfin := Susp.leaves_runAll _ rs p
      (poReviewRef_leaves_finish llm now h addr s (by simpa using hus)) hr
    refine ⟨Or.inr ⟨by simpa using hus, hfin⟩, ?_⟩
    obtain ⟨uc, r, rfl⟩ := hfin
    intro j hj
    exact heapGet_set_ne h addr j _ hj

theorem C7_amended_witness :
    ((baseState.user_stories.isEmpty = true ∧ c7Post.1 = [[]] ∧
        c7Post.2 = { baseState with
                     approval_status := .vstr "approved",
                     current_stage := "product_owner_review_complete",
                     timestamp := "t1" }) ∨
      (baseState.user_stories.isEmpty = false ∧
        ∃ uc r, c7Post = poFinishRef [[]] 0 baseState uc r "t1")) ∧
    (∀ j, j ≠ 0 → heapGet c7Post.1 j = heapGet [[]] j) :=
  C7_amended_aliasing (Except.error ()) "t1" [[]] 0 baseState [RVal.vstr "auto"]
    c7Post rfl

theorem firstValidChoiceStrip_isSome (opts : List String) (inputs : List String)
    (i : String) (hi : i ∈ inputs) (hv : i.trim ∈ opts) :
    (firstValidChoiceStrip opts inputs).isSome = true := by
  induction inputs with
  | nil => cases hi
  | cons j rest ih =>
    unfold firstValidChoiceStrip
    by_cases hj : opts.contains j.trim = true
    · rw [if_pos hj]; rfl
    · rw [if_neg hj]
      rcases List.mem_cons.mp hi with rfl | hmem
      · exact absurd (by simpa using hv) hj
      · exact ih hmem

/-- Claim C8: an interrupt payload whose type tag is not one of the twenty
known review interrupt types is dispatched to the generic resolver, which
produces a resume value whenever console input is available: the next entry
verbatim when the payload offers no options, the first option-valid entry
otherwise. -/
theorem C8_unknown_type_generic (d : InterruptData) (inputs : List String)
    (hunknown : d.ptype ∉ knownInterruptTypes) :
    (_handle_single_interrupt d inputs = _handle_generic_interrupt d inputs) ∧
    (d.options = [] → ∀ i rest, inputs = i :: rest →
      _handle_single_interrupt d inputs = some (RVal.vstr i.trim)) ∧
    (∀ i ∈ inputs, i.trim ∈ d.options →
      (_handle_single_interrupt d inputs).isSome = true) := by
  simp only [knownInterruptTypes, List.mem_cons, List.not_mem_nil, or_false] at hunknown
  push_neg at hunknown
  obtain ⟨n1, n2, n3, n4, n5, n6, n7, n8, n9, n10, n11, n12, n13, n14, n15, n16,
    n17, n18, n19, n20⟩ := hunknown
  have hmain : _handle_single_interrupt d inputs = _handle_generic_interrupt d inputs := by
    simp only [_handle_single_interrupt]
    rw [if_neg n1, if_neg n2, if_neg n3, if_neg n4, if_neg n5, if_neg n6, if_neg n7,
      if_neg n8, if_neg n9, if_neg n10, if_neg n11, if_neg n12, if_neg n13,
      if_neg n14, if_neg n15, if_neg n16, if_neg n17, if_neg n18, if_neg n19,
      if_neg n20]
  refine ⟨hmain, ?_, ?_⟩
  · intro hopts i rest hin
    rw [hmain, hin]
    simp [_handle_generic_interrupt, hopts]
  · intro i hi hv
    rw [hmain]
    have hne : d.options ≠ [] := by
      intro hcontra
      rw [hcontra] at hv
      cases hv
    unfold _handle_generic_interrupt
    rw [if_pos hne]
    have hs := firstValidChoiceStrip_isSome d.options inputs i hi hv
    cases hfv : firstValidChoiceStrip d.options inputs with
    | none => rw [hfv] at hs; cases hs
    | some c => rfl

theorem C8_witness :
    (_handle_single_interrupt unknownPayload ["proceed"] =
      _handle_generic_interrupt unknownPayload ["proceed"]) ∧
    (_handle_single_interrupt unknownPayload ["proceed"] =
      some (RVal.vstr ("proceed").trim)) := by
  have h := C8_unknown_type_generic unknownPayload ["proceed"] (by decide)
  exact ⟨h.1, h.2.1 rfl "proceed" [] rfl⟩

/-- Claim C9: when the delegated-LLM call of the AI product-owner review
raises, the handler returns the auto-approve fallback dictionary (status
"approve") instead of propagating, and the review stage containing it still
completes with the corresponding reviewed state. -/
theorem C9_ai_review_fallback (now : String) (s : SDLCState) :
    (_handle_ai_review_dynamic (Except.error ()) now = _handle_auto_approve_dynamic now) ∧
    ((_handle_ai_review_dynamic (Except.error ()) now).status = RVal.vstr "approve") ∧
    (s.user_stories.isEmpty = false →
      (product_owner_review_dynamic (Except.error ()) now s).runAll [RVal.vstr "ai"] =
        some (poFinish s (RVal.vstr "ai") (_handle_auto_approve_dynamic now) now)) := by
  refine ⟨rfl, rfl, fun hus => ?_⟩
  unfold product_owner_review_dynamic
  rw [if_neg (by simp [hus])]
  rfl

theorem C9_witness :
    (product_owner_review_dynamic (Except.error ()) "t1" baseState).runAll
        [RVal.vstr "ai"] =
      some (poFinish baseState (RVal.vstr "ai") (_handle_auto_approve_dynamic "t1") "t1") :=
  (C9_ai_review_fallback "t1" baseState).2.2 rfl

/-- Claim C10: the resolver for "human_test_improvement_suggestions"
payloads collects the console entry but has no return statement, so it
produces the Python value None for every entered suggestion, and the
dispatcher therefore always resumes that pause point with None. -/
theorem C10_test_suggestions_return_none (d : InterruptData) (i : String)
    (rest : List String) :
    _handle_human_test_improvement_suggestions d (i :: rest) = some RVal.vnone ∧
    _handle_single_interrupt
        { ptype := "human_test_improvement_suggestions", options := d.options,
          risk_options := d.risk_options } (i :: rest) = some RVal.vnone :=
  ⟨rfl, rfl⟩
